import Mathlib

/-!
Shallow embedding of the validation and index-assembly pipeline of the
fury-fdroid-v2 repository (src/scripts/validator.py, asset_selector.py,
index_builder.py, main.py), together with theorems settling the claims
about it.  Python dictionaries with heterogeneous values are embedded as
the inductive type `JVal`; dictionaries whose shape is fixed by the code
(extracted APK metadata, configuration records, session objects) are
embedded as Lean structures projecting exactly the keys the code reads.
External effects (network fetch, APK extraction, file writes, the clock)
are passed in as explicit inputs.
-/

/-- JSON-like values: the model of Python dicts/lists/scalars flowing
through the index builder.  Objects are insertion-ordered key/value
lists, matching Python dict iteration order. -/
inductive JVal where
  | null : JVal
  | bool (b : Bool) : JVal
  | int (n : Int) : JVal
  | str (s : String) : JVal
  | arr (xs : List JVal) : JVal
  | obj (fields : List (String × JVal)) : JVal

/-- Association-list lookup, first match wins (Python dict lookup; keys
are unique in every dict the code builds). -/
def alookup {β : Type} : List (String × β) → String → Option β
  | [], _ => none
  | p :: ps, k => if p.1 = k then some p.2 else alookup ps k

/-- Python dict assignment `m[k] = v`: replace in place if the key is
present (Python dicts keep the original position), else append. -/
def pyDictSet {β : Type} (m : List (String × β)) (k : String) (v : β) :
    List (String × β) :=
  if (alookup m k).isSome then
    m.map (fun p => if p.1 = k then (k, v) else p)
  else m ++ [(k, v)]

/-- Fields of an object value; non-objects have none. -/
def jFields : JVal → List (String × JVal)
  | JVal.obj fs => fs
  | _ => []

/-- Python `d.get(key)` on an object value. -/
def jGet (v : JVal) (k : String) : Option JVal :=
  match v with
  | JVal.obj fs => alookup fs k
  | _ => none

/-- Python `d.get(key, default)` on an object value. -/
def jGetD (v : JVal) (k : String) (d : JVal) : JVal :=
  (jGet v k).getD d

/-- Python truthiness of a value. -/
def jTruthy : JVal → Bool
  | JVal.null => false
  | JVal.bool b => b
  | JVal.int n => n != 0
  | JVal.str s => s != ""
  | JVal.arr xs => !xs.isEmpty
  | JVal.obj fs => !fs.isEmpty

/-- String content of a value used as a dict key (keys produced by the
pipeline are always strings). -/
def jKeyStr : JVal → String
  | JVal.str s => s
  | _ => ""

/-- Python truthiness of an optional string (`None` and `""` are falsy). -/
def pyTruthyS : Option String → Bool
  | some s => s != ""
  | none => false

/-- Python `a or b` for optional strings (falls through on `None`/`""`). -/
def pyOrS (a b : Option String) : Option String :=
  match a with
  | some s => if s = "" then b else some s
  | none => b

/-- Python `a or b` for optional integers (falls through on `None`/`0`). -/
def pyOrI (a b : Option Int) : Option Int :=
  match a with
  | some n => if n = 0 then b else some n
  | none => b

/-- Extracted APK metadata (apk_processor.process_apk output), projected
to the keys read by validator.py, index_builder.py and main.py.
`version_code = none` models a record where `metadata.get("version_code")`
yields `None` (key absent).  `permissions` entries are kept as raw values
since they are copied verbatim into the manifest. -/
structure Metadata where
  package_name : String
  version_name : String
  version_code : Option Int
  min_sdk_version : Int
  target_sdk_version : Int
  permissions : List JVal
  native_code : List String
  signing_cert_sha256 : Option String
  sha256 : String
  size : Int

/-- Result of a validation check (validator.ValidationResult). -/
structure ValidationResult where
  is_valid : Bool
  error_message : String
  warning_message : String
deriving DecidableEq, Repr

/-- Validator rule: ABI compliance (validator.validate_abi). -/
def validate_abi (metadata : Metadata) (abi_policy : String) : ValidationResult :=
  let native_code := metadata.native_code
  if "x86" ∈ native_code ∨ "x86_64" ∈ native_code then
    ⟨false, "x86 or x86_64 build detected - ARM only repository", ""⟩
  else if abi_policy = "arm64_only" ∧ native_code ≠ [] ∧ "arm64-v8a" ∉ native_code then
    ⟨false, s!"arm64_only policy requires arm64-v8a, found: {native_code}", ""⟩
  else ⟨true, "", ""⟩

/-- Validator rule: package identifier allow-list (validator.validate_package_id). -/
def validate_package_id (metadata : Metadata) (allowed_ids : List String) : ValidationResult :=
  let package_name := metadata.package_name
  if package_name = "" then
    ⟨false, "No package name found in APK", ""⟩
  else if allowed_ids ≠ [] ∧ package_name ∉ allowed_ids then
    ⟨false, s!"Package ID {package_name} not in allowed list: {allowed_ids}", ""⟩
  else ⟨true, "", ""⟩

/-- Validator rule: signing-certificate continuity (validator.validate_signature). -/
def validate_signature (metadata : Metadata) (cached_cert : Option String)
    (allow_signature_change : Bool) : ValidationResult :=
  let current_cert := metadata.signing_cert_sha256
  if pyTruthyS current_cert = false then
    ⟨true, "", "Signing certificate not extracted (requires androguard/apksigner)"⟩
  else if pyTruthyS cached_cert = true ∧ current_cert ≠ cached_cert then
    if allow_signature_change = false then
      ⟨false, "Signing certificate changed and allow_signature_change=false", ""⟩
    else
      ⟨true, "", "Signing certificate changed (allowed by policy)"⟩
  else ⟨true, "", ""⟩

/-- Validator rule: version-code monotonicity (validator.validate_version_code). -/
def validate_version_code (version_code : Int) (cached_highest_version : Option Int) :
    ValidationResult :=
  match cached_highest_version with
  | some highest =>
    if version_code < highest then
      ⟨false, s!"Version code {version_code} is less than cached highest {highest}", ""⟩
    else ⟨true, "", ""⟩
  | none => ⟨true, "", ""⟩

/-- Validator rule: intra-run duplicate version code
(validator.validate_duplicate_version_code). -/
def validate_duplicate_version_code (version_code : Int)
    (existing_version_codes : Finset Int) : ValidationResult :=
  if version_code ∈ existing_version_codes then
    ⟨false, s!"Duplicate version code: {version_code}", ""⟩
  else ⟨true, "", ""⟩

/-- Validator rule: duplicate package id across logical apps
(validator.validate_duplicate_package_id). -/
def validate_duplicate_package_id (package_id : String)
    (package_id_map : List (String × String)) (current_logical_id : String) :
    ValidationResult :=
  match alookup package_id_map package_id with
  | some existing_logical_id =>
    if existing_logical_id ≠ current_logical_id then
      ⟨false, s!"Duplicate package ID {package_id} used by both {existing_logical_id} and {current_logical_id}", ""⟩
    else ⟨true, "", ""⟩
  | none => ⟨true, "", ""⟩

/-- Per-application validation session (validator.AppValidator): policy
parameters, cached signing identity and highest version code, the set of
version codes seen this run, and the accumulated diagnostic messages. -/
structure AppValidator where
  logical_id : String
  abi_policy : String
  allowed_ids : List String
  allow_pkg_change : Bool
  allow_signature_change : Bool
  cached_cert : Option String
  cached_highest_version : Option Int
  seen_version_codes : Finset Int
  validation_errors : List String
  validation_warnings : List String

/-- The ordered rule chain applied to one metadata record, mutating the
session on acceptance (validator.AppValidator.validate_version). -/
def AppValidator.validate_version (self : AppValidator) (metadata : Metadata) :
    ValidationResult × AppValidator :=
  let result := validate_abi metadata self.abi_policy
  if result.is_valid = false then
    (result, { self with validation_errors := self.validation_errors ++ [result.error_message] })
  else
    let self1 :=
      if result.warning_message ≠ "" then
        { self with validation_warnings := self.validation_warnings ++ [result.warning_message] }
      else self
    let result2 := validate_package_id metadata self1.allowed_ids
    if result2.is_valid = false then
      (result2, { self1 with validation_errors := self1.validation_errors ++ [result2.error_message] })
    else
      let result3 := validate_signature metadata self1.cached_cert self1.allow_signature_change
      if result3.is_valid = false then
        (result3, { self1 with validation_errors := self1.validation_errors ++ [result3.error_message] })
      else
        let self2 :=
          if result3.warning_message ≠ "" then
            { self1 with validation_warnings := self1.validation_warnings ++ [result3.warning_message] }
          else self1
        match metadata.version_code with
        | none => (⟨true, "", ""⟩, self2)
        | some version_code =>
          let result4 := validate_version_code version_code self2.cached_highest_version
          if result4.is_valid = false then
            (result4, { self2 with validation_errors := self2.validation_errors ++ [result4.error_message] })
          else
            let result5 := validate_duplicate_version_code version_code self2.seen_version_codes
            if result5.is_valid = false then
              (result5, { self2 with validation_errors := self2.validation_errors ++ [result5.error_message] })
            else
              (⟨true, "", ""⟩,
               { self2 with seen_version_codes := insert version_code self2.seen_version_codes })

/-- Cross-application validation session (validator.GlobalValidator). -/
structure GlobalValidator where
  package_id_map : List (String × String)
  duplicate_pairs : List (String × String × String)

/-- Register a package id for a logical app
(validator.GlobalValidator.register_package_id). -/
def GlobalValidator.register_package_id (self : GlobalValidator)
    (package_id logical_id : String) : ValidationResult × GlobalValidator :=
  let result := validate_duplicate_package_id package_id self.package_id_map logical_id
  if result.is_valid = false then
    (result,
     { self with duplicate_pairs :=
        self.duplicate_pairs ++
          [(package_id, (alookup self.package_id_map package_id).getD "", logical_id)] })
  else
    (⟨true, "", ""⟩,
     { self with package_id_map := pyDictSet self.package_id_map package_id logical_id })

/-! Association-list helper lemmas used by several claims. -/

theorem alookup_append_none {β : Type} (m l : List (String × β)) (k : String)
    (h : alookup m k = none) : alookup (m ++ l) k = alookup l k := by
  induction m with
  | nil => simp
  | cons p ps ih =>
    by_cases hk : p.1 = k
    · simp [alookup, hk] at h
    · simp only [alookup, hk, if_false] at h
      simp only [List.cons_append, alookup, hk, if_false]
      exact ih h

theorem alookup_eq_of_mem_nodup {β : Type} (m : List (String × β))
    (q : String × β) (hq : q ∈ m) (hnd : (m.map Prod.fst).Nodup) :
    alookup m q.1 = some q.2 := by
  induction m with
  | nil => cases hq
  | cons p ps ih =>
    simp only [List.map_cons, List.nodup_cons] at hnd
    rcases List.mem_cons.mp hq with rfl | hq
    · simp [alookup]
    · have hk : p.1 ≠ q.1 := by
        intro heq
        exact hnd.1 (heq ▸ List.mem_map_of_mem Prod.fst hq)
      simp only [alookup, if_neg hk]
      exact ih hq hnd.2

theorem map_setkey_eq_self {β : Type} (k : String) (v : β) :
    ∀ m : List (String × β), (∀ q ∈ m, q.1 = k → q.2 = v) →
      m.map (fun p => if p.1 = k then (k, v) else p) = m := by
  intro m
  induction m with
  | nil => intro _; rfl
  | cons p ps ih =>
    intro hpt
    simp only [List.map_cons]
    have htl : ps.map (fun p => if p.1 = k then (k, v) else p) = ps :=
      ih (fun q hq hqk => hpt q (List.mem_cons_of_mem p hq) hqk)
    by_cases hk : p.1 = k
    · have hv : p.2 = v := hpt p (List.mem_cons_self p ps) hk
      rw [htl, if_pos hk, ← hk, ← hv]
    · rw [htl, if_neg hk]

theorem pyDictSet_unclaimed {β : Type} (m : List (String × β)) (k : String) (v : β)
    (h : alookup m k = none) : pyDictSet m k v = m ++ [(k, v)] := by
  simp [pyDictSet, h]

theorem pyDictSet_same {β : Type} (m : List (String × β)) (k : String) (v : β)
    (hnd : (m.map Prod.fst).Nodup) (h : alookup m k = some v) :
    pyDictSet m k v = m := by
  unfold pyDictSet
  rw [if_pos (by simp [h])]
  refine map_setkey_eq_self k v m (fun q hq hqk => ?_)
  have := alookup_eq_of_mem_nodup m q hq hnd
  rw [hqk, h] at this
  exact (Option.some.inj this).symm

/-- Sample metadata record declaring an x86 native architecture. -/
def mdX86 : Metadata :=
  ⟨"com.example.app", "1.0", some 10, 21, 34, [], ["x86"], none, "aa", 100⟩

/-- Sample metadata record declaring only a 32-bit ARM architecture. -/
def mdV7 : Metadata :=
  ⟨"com.example.app", "1.0", some 10, 21, 34, [], ["armeabi-v7a"], none, "aa", 100⟩

/-- C2: a metadata record whose declared native architectures include
x86 or x86_64 is rejected by validate_abi under every policy, and under
the arm64_only policy a non-empty architecture list lacking arm64-v8a is
rejected. -/
theorem C2_validate_abi_x86_and_arm64_only (m : Metadata) :
    (∀ policy : String, ("x86" ∈ m.native_code ∨ "x86_64" ∈ m.native_code) →
      (validate_abi m policy).is_valid = false) ∧
    (m.native_code ≠ [] → "arm64-v8a" ∉ m.native_code →
      (validate_abi m "arm64_only").is_valid = false) := by
  constructor
  · intro policy h
    simp only [validate_abi]
    rw [if_pos h]
  · intro h1 h2
    by_cases hx : "x86" ∈ m.native_code ∨ "x86_64" ∈ m.native_code
    · simp only [validate_abi]
      rw [if_pos hx]
    · simp [validate_abi, hx, h1, h2]

/-- Witness for C2 at concrete metadata records. -/
theorem C2_witness :
    (validate_abi mdX86 "arm_preferred").is_valid = false ∧
    (validate_abi mdV7 "arm64_only").is_valid = false :=
  ⟨(C2_validate_abi_x86_and_arm64_only mdX86).1 "arm_preferred" (Or.inl (by decide)),
   (C2_validate_abi_x86_and_arm64_only mdV7).2 (by decide) (by decide)⟩

/-- C3: with a cached highest version code v2, an incoming version code
v1 < v2 is rejected by validate_version_code (no downgrade); with no
cached highest version code, any version code passes this rule. -/
theorem C3_version_code_monotonic (v1 v2 : Int) :
    (v1 < v2 → (validate_version_code v1 (some v2)).is_valid = false) ∧
    (validate_version_code v1 none).is_valid = true := by
  constructor
  · intro h
    simp [validate_version_code, h]
  · rfl

/-- Witness for C3 at version codes 3 < 7. -/
theorem C3_witness :
    (validate_version_code 3 (some 7)).is_valid = false ∧
    (validate_version_code 3 none).is_valid = true :=
  ⟨(C3_version_code_monotonic 3 7).1 (by decide), (C3_version_code_monotonic 3 7).2⟩

/-- C4: registering an unclaimed package id claims it and returns Valid;
re-registering the same (package_id, logical_id) pair returns Valid and
leaves the session unchanged; registering the same package id under a
different logical id returns Invalid, appends exactly one collision
triple, and leaves the claim map unchanged.  The hypothesis that the
claim map has no duplicate keys is an invariant of every map the session
itself builds. -/
theorem C4_register_package_id (gv : GlobalValidator) (pid lid : String)
    (hnd : (gv.package_id_map.map Prod.fst).Nodup) :
    (alookup gv.package_id_map pid = none →
      (gv.register_package_id pid lid).1.is_valid = true ∧
      (gv.register_package_id pid lid).2.package_id_map = gv.package_id_map ++ [(pid, lid)] ∧
      alookup (gv.register_package_id pid lid).2.package_id_map pid = some lid ∧
      (gv.register_package_id pid lid).2.duplicate_pairs = gv.duplicate_pairs) ∧
    (alookup gv.package_id_map pid = some lid →
      (gv.register_package_id pid lid).1.is_valid = true ∧
      (gv.register_package_id pid lid).2 = gv) ∧
    (∀ other : String, alookup gv.package_id_map pid = some other → other ≠ lid →
      (gv.register_package_id pid lid).1.is_valid = false ∧
      (gv.register_package_id pid lid).2.duplicate_pairs =
        gv.duplicate_pairs ++ [(pid, other, lid)] ∧
      (gv.register_package_id pid lid).2.package_id_map = gv.package_id_map) := by
  refine ⟨?_, ?_, ?_⟩
  · intro h
    have hreg : gv.register_package_id pid lid =
        (⟨true, "", ""⟩, { gv with package_id_map := gv.package_id_map ++ [(pid, lid)] }) := by
      simp [GlobalValidator.register_package_id, validate_duplicate_package_id, h,
            pyDictSet_unclaimed _ _ _ h]
    rw [hreg]
    refine ⟨rfl, rfl, ?_, rfl⟩
    show alookup (gv.package_id_map ++ [(pid, lid)]) pid = some lid
    rw [alookup_append_none _ _ _ h]
    simp [alookup]
  · intro h
    have hreg : gv.register_package_id pid lid = (⟨true, "", ""⟩, gv) := by
      simp [GlobalValidator.register_package_id, validate_duplicate_package_id, h,
            pyDictSet_same _ _ _ hnd h]
    rw [hreg]
    exact ⟨rfl, rfl⟩
  · intro other h hne
    have hreg : (gv.register_package_id pid lid).2 =
        { gv with duplicate_pairs := gv.duplicate_pairs ++ [(pid, other, lid)] } ∧
        (gv.register_package_id pid lid).1.is_valid = false := by
      simp [GlobalValidator.register_package_id, validate_duplicate_package_id, h, hne]
    exact ⟨hreg.2, by rw [hreg.1], by rw [hreg.1]⟩

/-- Witness for C4: a fresh claim, an idempotent re-claim, and a
collision, on a concrete session. -/
theorem C4_witness :
    ((GlobalValidator.mk [] []).register_package_id "com.example.app" "app1").1.is_valid = true ∧
    ((GlobalValidator.mk [("com.example.app", "app1")] []).register_package_id
        "com.example.app" "app1").2 = GlobalValidator.mk [("com.example.app", "app1")] [] ∧
    ((GlobalValidator.mk [("com.example.app", "app1")] []).register_package_id
        "com.example.app" "app2").2.duplicate_pairs = [("com.example.app", "app1", "app2")] :=
  ⟨((C4_register_package_id (GlobalValidator.mk [] []) "com.example.app" "app1"
      (by simp)).1 rfl).1,
   ((C4_register_package_id (GlobalValidator.mk [("com.example.app", "app1")] [])
      "com.example.app" "app1" (by simp)).2.1 (by simp [alookup])).2,
   (((C4_register_package_id (GlobalValidator.mk [("com.example.app", "app1")] [])
      "com.example.app" "app2" (by simp)).2.2 "app1" (by simp [alookup])
      (by decide)).2.1)⟩

/-! Stable descending sort.  Python's `list.sort(key=..., reverse=True)`
is a stable sort placing larger keys first and preserving the original
order of elements with equal keys; any stable sort computes the same
list, so it is embedded as an insertion sort whose insert walks past
exactly the strictly-greater elements. -/

/-- Insert x after every element whose key is strictly greater
(`gt y x = true` means y's sort key is strictly greater than x's). -/
def insertDescBy {α : Type} (gt : α → α → Bool) (x : α) : List α → List α
  | [] => [x]
  | y :: ys => if gt y x then y :: insertDescBy gt x ys else x :: y :: ys

/-- Stable descending insertion sort. -/
def sortDescBy {α : Type} (gt : α → α → Bool) : List α → List α
  | [] => []
  | x :: xs => insertDescBy gt x (sortDescBy gt xs)

theorem insertDescBy_perm {α : Type} (gt : α → α → Bool) (x : α) (l : List α) :
    List.Perm (insertDescBy gt x l) (x :: l) := by
  induction l with
  | nil => exact List.Perm.refl _
  | cons y ys ih =>
    simp only [insertDescBy]
    by_cases h : gt y x = true
    · rw [if_pos h]
      exact (ih.cons y).trans (List.Perm.swap x y ys)
    · rw [if_neg h]

theorem sortDescBy_perm {α : Type} (gt : α → α → Bool) (l : List α) :
    List.Perm (sortDescBy gt l) l := by
  induction l with
  | nil => exact List.Perm.refl _
  | cons x xs ih =>
    exact (insertDescBy_perm gt x (sortDescBy gt xs)).trans (ih.cons x)

theorem length_sortDescBy {α : Type} (gt : α → α → Bool) (l : List α) :
    (sortDescBy gt l).length = l.length :=
  (sortDescBy_perm gt l).length_eq

theorem mem_insertDescBy {α : Type} (gt : α → α → Bool) (x : α) (l : List α)
    (z : α) (hz : z ∈ insertDescBy gt x l) : z = x ∨ z ∈ l := by
  have := (insertDescBy_perm gt x l).mem_iff.mp hz
  simpa using this

theorem insertDescBy_pairwise {α : Type} (gt : α → α → Bool)
    (hasym : ∀ a b, gt a b = true → gt b a = false)
    (htrans : ∀ a b c, gt c b = false → gt b a = false → gt c a = false)
    (x : α) (l : List α) (hl : l.Pairwise (fun a b => gt b a = false)) :
    (insertDescBy gt x l).Pairwise (fun a b => gt b a = false) := by
  induction l with
  | nil => simp [insertDescBy]
  | cons y ys ih =>
    rcases List.pairwise_cons.mp hl with ⟨hy, hys⟩
    simp only [insertDescBy]
    by_cases h : gt y x = true
    · rw [if_pos h]
      refine List.pairwise_cons.mpr ⟨?_, ih hys⟩
      intro z hz
      rcases mem_insertDescBy gt x ys z hz with rfl | hz
      · exact hasym y z h
      · exact hy z hz
    · rw [if_neg h]
      refine List.pairwise_cons.mpr ⟨?_, hl⟩
      intro z hz
      rcases List.mem_cons.mp hz with rfl | hz
      · exact Bool.not_eq_true _ ▸ (by simpa using h)
      · exact htrans x y z (hy z hz) (by simpa using h)

theorem sortDescBy_pairwise {α : Type} (gt : α → α → Bool)
    (hasym : ∀ a b, gt a b = true → gt b a = false)
    (htrans : ∀ a b c, gt c b = false → gt b a = false → gt c a = false)
    (l : List α) :
    (sortDescBy gt l).Pairwise (fun a b => gt b a = false) := by
  induction l with
  | nil => simp [sortDescBy]
  | cons x xs ih => exact insertDescBy_pairwise gt hasym htrans x _ ih

theorem insertDescBy_of_all_not_gt {α : Type} (gt : α → α → Bool) (x : α)
    (l : List α) (h : ∀ y ∈ l, gt y x = false) :
    insertDescBy gt x l = x :: l := by
  cases l with
  | nil => rfl
  | cons y ys =>
    simp only [insertDescBy]
    rw [if_neg (by simp [h y (List.mem_cons_self y ys)])]

theorem sortDescBy_eq_self_of_pairwise {α : Type} (gt : α → α → Bool)
    (l : List α) (hl : l.Pairwise (fun a b => gt b a = false)) :
    sortDescBy gt l = l := by
  induction l with
  | nil => rfl
  | cons x xs ih =>
    rcases List.pairwise_cons.mp hl with ⟨hx, hxs⟩
    simp only [sortDescBy]
    rw [ih hxs]
    exact insertDescBy_of_all_not_gt gt x xs hx

/-- Head of the stable descending sort is maximal: no element of the
list is strictly greater than it. -/
theorem sortDescBy_head_max {α : Type} (gt : α → α → Bool)
    (hasym : ∀ a b, gt a b = true → gt b a = false)
    (htrans : ∀ a b c, gt c b = false → gt b a = false → gt c a = false)
    (l : List α) (b : α) (hb : (sortDescBy gt l).head? = some b) :
    b ∈ l ∧ ∀ a ∈ l, gt a b = false := by
  have hperm := sortDescBy_perm gt l
  have hpw := sortDescBy_pairwise gt hasym htrans l
  cases hs : sortDescBy gt l with
  | nil => rw [hs] at hb; cases hb
  | cons c cs =>
    rw [hs] at hb
    have hbc : c = b := by simpa using hb
    subst hbc
    rw [hs] at hperm hpw
    constructor
    · exact hperm.mem_iff.mp (List.mem_cons_self c cs)
    · intro a ha
      rcases List.mem_cons.mp (hperm.symm.mem_iff.mp ha) with rfl | hacs
      · by_cases hgt : gt a a = true
        · exact hasym a a hgt
        · simpa using hgt
      · exact (List.pairwise_cons.mp hpw).1 a hacs

/-- Version code of a version object:
`v.get("manifest", {}).get("versionCode", 0)` (non-integer values, which
the pipeline never produces, are read as 0). -/
def manifestVersionCode (v : JVal) : Int :=
  match jGetD (jGetD v "manifest" (JVal.obj [])) "versionCode" (JVal.int 0) with
  | JVal.int n => n
  | _ => 0

/-- Sort comparator used by apply_retention: strictly greater versionCode. -/
def vcGt (a b : JVal) : Bool := decide (manifestVersionCode b < manifestVersionCode a)

/-- Version retention policy (index_builder.apply_retention): empty
input or nonpositive retain count gives the empty list, otherwise sort
by versionCode descending (stable) and keep the first retain_count. -/
def apply_retention (versions : List JVal) (retain_count : Int) : List JVal :=
  if versions.isEmpty = true ∨ retain_count ≤ 0 then []
  else (sortDescBy vcGt versions).take retain_count.toNat

theorem apply_retention_cond (versions : List JVal) (N : Int) :
    (versions.isEmpty = true ∨ N ≤ 0) ↔ (versions = [] ∨ N ≤ 0) :=
  or_congr_left (by simp)

theorem vcGt_asymm : ∀ a b, vcGt a b = true → vcGt b a = false := by
  intro a b h
  simp only [vcGt, decide_eq_true_eq] at h
  simp only [vcGt, decide_eq_false_iff_not]
  omega

theorem vcGt_negtrans :
    ∀ a b c, vcGt c b = false → vcGt b a = false → vcGt c a = false := by
  intro a b c h1 h2
  simp only [vcGt, decide_eq_false_iff_not] at h1 h2 ⊢
  omega

/-- C5: apply_retention returns the empty list on empty input or
nonpositive N, otherwise the input stably sorted by versionCode
descending and truncated to N; its output length is min(N, input
length), its output is sorted by versionCode descending and drawn from
the input, and it is idempotent. -/
theorem C5_apply_retention (versions : List JVal) (N : Int) :
    ((versions = [] ∨ N ≤ 0) → apply_retention versions N = []) ∧
    (¬(versions = [] ∨ N ≤ 0) →
      apply_retention versions N = (sortDescBy vcGt versions).take N.toNat) ∧
    (apply_retention versions N).length = min N.toNat versions.length ∧
    (apply_retention versions N).Pairwise
      (fun a b => manifestVersionCode b ≤ manifestVersionCode a) ∧
    List.Subperm (apply_retention versions N) versions ∧
    apply_retention (apply_retention versions N) N = apply_retention versions N := by
  by_cases h0 : versions = [] ∨ N ≤ 0
  · have hr : apply_retention versions N = [] := by
      unfold apply_retention
      rw [if_pos ((apply_retention_cond versions N).mpr h0)]
    refine ⟨fun _ => hr, fun hc => absurd h0 hc, ?_, ?_, ?_, ?_⟩
    · rw [hr]
      rcases h0 with h | h
      · simp [h]
      · have htz : N.toNat = 0 := Int.toNat_of_nonpos h
        simp [htz]
    · rw [hr]; exact List.Pairwise.nil
    · rw [hr]; exact List.nil_subperm
    · rw [hr]
      unfold apply_retention
      rw [if_pos (Or.inl (by simp))]
  · have hr : apply_retention versions N = (sortDescBy vcGt versions).take N.toNat := by
      unfold apply_retention
      rw [if_neg (fun hc => h0 ((apply_retention_cond versions N).mp hc))]
    push_neg at h0
    obtain ⟨hne, hNpos⟩ := h0
    have hpwGt : (apply_retention versions N).Pairwise (fun a b => vcGt b a = false) := by
      rw [hr]
      exact List.Pairwise.sublist (List.take_sublist _ _)
        (sortDescBy_pairwise vcGt vcGt_asymm vcGt_negtrans versions)
    have hlen : (apply_retention versions N).length = min N.toNat versions.length := by
      rw [hr, List.length_take, length_sortDescBy]
    refine ⟨?_, fun _ => hr, hlen, ?_, ?_, ?_⟩
    · intro hc
      rcases hc with hc | hc
      · exact absurd hc hne
      · exact absurd hc (by omega)
    · exact hpwGt.imp (fun {a b} h => by
        simpa only [vcGt, decide_eq_false_iff_not, not_lt] using h)
    · rw [hr]
      exact ((List.take_sublist _ _).subperm).trans (sortDescBy_perm vcGt versions).subperm
    · obtain ⟨r, hrdef⟩ : ∃ r, apply_retention versions N = r := ⟨_, rfl⟩
      rw [hrdef] at hpwGt hlen ⊢
      have hrne : r ≠ [] := by
        intro hnil
        have hv : 0 < versions.length := List.length_pos.mpr hne
        have hN0 : 0 < N.toNat := by omega
        have hmin : 0 < min N.toNat versions.length := lt_min_iff.mpr ⟨hN0, hv⟩
        rw [hnil] at hlen
        simp only [List.length_nil] at hlen
        exact absurd hlen.symm (ne_of_gt hmin)
      unfold apply_retention
      rw [if_neg (fun hc => by
        rcases (apply_retention_cond r N).mp hc with hc | hc
        · exact hrne hc
        · omega)]
      rw [sortDescBy_eq_self_of_pairwise vcGt _ hpwGt]
      refine List.take_of_length_le ?_
      rw [hlen]
      exact min_le_left _ _

/-- Witness for C5 on a concrete two-element version list with N = 1. -/
theorem C5_witness :
    apply_retention
      [JVal.obj [("manifest", JVal.obj [("versionCode", JVal.int 5)])],
       JVal.obj [("manifest", JVal.obj [("versionCode", JVal.int 7)])]] 1 =
      [JVal.obj [("manifest", JVal.obj [("versionCode", JVal.int 7)])]] ∧
    (apply_retention
      [JVal.obj [("manifest", JVal.obj [("versionCode", JVal.int 5)])],
       JVal.obj [("manifest", JVal.obj [("versionCode", JVal.int 7)])]] 1).length = 1 ∧
    apply_retention ([] : List JVal) 3 = [] := by
  refine ⟨?_, ?_, ?_⟩
  · have h := (C5_apply_retention
      [JVal.obj [("manifest", JVal.obj [("versionCode", JVal.int 5)])],
       JVal.obj [("manifest", JVal.obj [("versionCode", JVal.int 7)])]] 1).2.1
      (by simp)
    rw [h]
    rfl
  · have h := (C5_apply_retention
      [JVal.obj [("manifest", JVal.obj [("versionCode", JVal.int 5)])],
       JVal.obj [("manifest", JVal.obj [("versionCode", JVal.int 7)])]] 1).2.2.1
    rw [h]
    rfl
  · exact (C5_apply_retention [] 3).1 (Or.inl rfl)

/-! Asset selector (src/scripts/asset_selector.py). -/

/-- A release-attached file as seen by the selector (GitHub asset dict
projected to the keys the code reads). -/
structure Asset where
  name : String
  size : Int
  browser_download_url : Option String
deriving DecidableEq, Repr

/-- Python `str.lower()` (ASCII case folding as used on APK names). -/
def pyLower (s : String) : String := String.mk (s.data.map Char.toLower)

/-- Python list/string prefix test on character lists. -/
def isPrefixB : List Char → List Char → Bool
  | [], _ => true
  | _ :: _, [] => false
  | a :: as, b :: bs => a == b && isPrefixB as bs

/-- Occurrence of a character list inside another (Python `in`). -/
def isInfixB (needle : List Char) : List Char → Bool
  | [] => needle.isEmpty
  | b :: bs => isPrefixB needle (b :: bs) || isInfixB needle bs

/-- Python `sub in s` for strings. -/
def strContains (s sub : String) : Bool := isInfixB sub.data s.data

/-- Python `s.endswith(suffix)`. -/
def strEndsWith (s suffix : String) : Bool := List.isSuffixOf suffix.data s.data

/-- Name/keyword filter for APK assets (asset_selector.is_valid_apk_asset). -/
def is_valid_apk_asset (asset : Asset) (include_keywords exclude_keywords : List String) :
    Bool :=
  let name := pyLower asset.name
  if strEndsWith name ".apk" = false then false
  else if strEndsWith name ".apks" = true then false
  else if exclude_keywords.any (fun kw => strContains name (pyLower kw)) then false
  else if include_keywords ≠ [] ∧
      include_keywords.any (fun kw => strContains name (pyLower kw)) = false then false
  else true

/-- Architecture hint from the filename
(asset_selector.extract_abi_from_filename). -/
def extract_abi_from_filename (filename : String) : List String :=
  let name_lower := pyLower filename
  let abis : List String :=
    if strContains name_lower "arm64" ∨ strContains name_lower "aarch64" then
      ["arm64-v8a"]
    else if strContains name_lower "armv7" ∨ strContains name_lower "armeabi-v7a" then
      ["armeabi-v7a"]
    else []
  let abis := abis ++
    (if strContains name_lower "x86_64" then ["x86_64"]
     else if strContains name_lower "x86" then ["x86"]
     else [])
  if strContains name_lower "arm" ∧ abis = [] then ["armeabi-v7a"] else abis

/-- Score of a candidate under the ABI policy (the score_asset closure
inside asset_selector.select_best_apk). -/
def score_asset (abi_policy : String) (asset : Asset) : Int × Int :=
  let abis := extract_abi_from_filename asset.name
  let size := asset.size
  let abi_score : Int :=
    if abi_policy = "arm64_only" then
      if "arm64-v8a" ∈ abis then 2
      else if "armeabi-v7a" ∈ abis then 1
      else 0
    else
      if "arm64-v8a" ∈ abis then 2
      else if "armeabi-v7a" ∈ abis then 1
      else if "x86_64" ∈ abis then 0
      else if "x86" ∈ abis then 0
      else 1
  (abi_score, size)

/-- Strict lexicographic greater on integer pairs (Python tuple `>`). -/
def lexGtII (p q : Int × Int) : Bool :=
  decide (q.1 < p.1) || (decide (p.1 = q.1) && decide (q.2 < p.2))

/-- Sort comparator for assets: strictly greater (abi_score, size). -/
def scoreGt (abi_policy : String) (a b : Asset) : Bool :=
  lexGtII (score_asset abi_policy a) (score_asset abi_policy b)

/-- Best-APK selection (asset_selector.select_best_apk): filter, stable
sort by score descending, take the first. -/
def select_best_apk (assets : List Asset) (include_keywords exclude_keywords : List String)
    (abi_policy : String) : Option Asset :=
  let valid_assets := assets.filter
    (fun a => is_valid_apk_asset a include_keywords exclude_keywords)
  if valid_assets.isEmpty = true then none
  else (sortDescBy (scoreGt abi_policy) valid_assets).head?

/-- Filename-level ABI compliance check
(asset_selector.check_abi_compliance). -/
def check_abi_compliance (asset : Asset) (abi_policy : String) : Bool × List String :=
  let abis := extract_abi_from_filename asset.name
  if "x86" ∈ abis ∨ "x86_64" ∈ abis then (false, abis)
  else if abi_policy = "arm64_only" ∧ abis ≠ [] ∧ "arm64-v8a" ∉ abis then (false, abis)
  else (true, abis)

theorem lexGtII_iff (p q : Int × Int) :
    lexGtII p q = true ↔ (q.1 < p.1 ∨ (p.1 = q.1 ∧ q.2 < p.2)) := by
  simp [lexGtII, Bool.or_eq_true, Bool.and_eq_true, decide_eq_true_eq]

theorem lexGtII_asymm (p q : Int × Int) (h : lexGtII p q = true) : lexGtII q p = false := by
  rw [Bool.eq_false_iff]
  simp only [Ne, lexGtII_iff] at h ⊢
  omega

theorem lexGtII_negtrans (p q r : Int × Int) (h1 : lexGtII r q = false)
    (h2 : lexGtII q p = false) : lexGtII r p = false := by
  rw [Bool.eq_false_iff] at h1 h2 ⊢
  simp only [Ne, lexGtII_iff] at h1 h2 ⊢
  omega

/-- Architecture rank asserted by the claim under arm_preferred (64-bit
ARM strictly above 32-bit ARM, strictly above universal, strictly above
x86).  This definition follows the claim's words, for comparison with
the code's score_asset, which instead ranks 32-bit ARM and universal
equally. -/
def claimed_rank_arm_preferred (a : Asset) : Int :=
  let abis := extract_abi_from_filename a.name
  if "arm64-v8a" ∈ abis then 3
  else if "armeabi-v7a" ∈ abis then 2
  else if "x86_64" ∈ abis ∨ "x86" ∈ abis then 0
  else 1

/-- Score tuple asserted by the claim under arm_preferred. -/
def claimed_score_arm_preferred (a : Asset) : Int × Int :=
  (claimed_rank_arm_preferred a, a.size)

/-- C6 counterexample: under arm_preferred, a 32-bit ARM asset of 10
bytes loses to a universal (no architecture signal) asset of 20 bytes,
although the claimed rank ordering (32-bit ARM above universal) gives
the ARM asset a strictly greater claimed score; so the selected asset is
not maximal under the claimed score tuple. -/
theorem C6_counterexample :
    select_best_apk
        [Asset.mk "app-armv7.apk" 10 none, Asset.mk "app-universal.apk" 20 none]
        [] [] "arm_preferred" = some (Asset.mk "app-universal.apk" 20 none) ∧
    (Asset.mk "app-armv7.apk" 10 none) ∈
      ([Asset.mk "app-armv7.apk" 10 none, Asset.mk "app-universal.apk" 20 none].filter
        (fun a => is_valid_apk_asset a [] [])) ∧
    lexGtII (claimed_score_arm_preferred (Asset.mk "app-armv7.apk" 10 none))
      (claimed_score_arm_preferred (Asset.mk "app-universal.apk" 20 none)) = true :=
  ⟨by decide, by decide, by decide⟩

/-- C6 amended: select_best_apk returns no selection iff the filtered
set is empty, and otherwise returns a member of the filtered set maximal
under the code's score tuple (abi_score, byte size) compared
lexicographically, where under arm_preferred the abi_score is 2 for
64-bit ARM, 1 for both 32-bit ARM and universal, 0 for x86/x86_64, and
under arm64_only it is 2 for 64-bit ARM, 1 for 32-bit ARM and 0 for
everything else (x86 and universal alike); rank ties are broken by
larger byte size, and remaining ties by earlier list position. -/
theorem C6_select_best_apk_amended (assets : List Asset)
    (incl excl : List String) (policy : String) :
    (select_best_apk assets incl excl policy = none ↔
      assets.filter (fun a => is_valid_apk_asset a incl excl) = []) ∧
    (∀ b, select_best_apk assets incl excl policy = some b →
      b ∈ assets.filter (fun a => is_valid_apk_asset a incl excl) ∧
      ∀ a ∈ assets.filter (fun a => is_valid_apk_asset a incl excl),
        scoreGt policy a b = false) ∧
    (∀ a : Asset, extract_abi_from_filename a.name = [] →
      (score_asset "arm_preferred" a).1 = 1 ∧ (score_asset "arm64_only" a).1 = 0) ∧
    (∀ a : Asset, extract_abi_from_filename a.name = ["armeabi-v7a"] →
      (score_asset "arm_preferred" a).1 = 1 ∧ (score_asset "arm64_only" a).1 = 1) ∧
    (∀ a : Asset, "arm64-v8a" ∈ extract_abi_from_filename a.name →
      (score_asset "arm_preferred" a).1 = 2 ∧ (score_asset "arm64_only" a).1 = 2) ∧
    (∀ a : Asset, (extract_abi_from_filename a.name = ["x86"] ∨
        extract_abi_from_filename a.name = ["x86_64"]) →
      (score_asset "arm_preferred" a).1 = 0 ∧ (score_asset "arm64_only" a).1 = 0) := by
  refine ⟨?_, ?_, ?_, ?_, ?_, ?_⟩
  · unfold select_best_apk
    by_cases hv : (assets.filter (fun a => is_valid_apk_asset a incl excl)).isEmpty = true
    · rw [if_pos hv]
      have hnil : assets.filter (fun a => is_valid_apk_asset a incl excl) = [] := by
        simpa using hv
      simp [hnil]
    · rw [if_neg hv]
      have hne : assets.filter (fun a => is_valid_apk_asset a incl excl) ≠ [] := by
        simpa using hv
      constructor
      · intro hnone
        have hsortnil : sortDescBy (scoreGt policy)
            (assets.filter (fun a => is_valid_apk_asset a incl excl)) = [] :=
          List.head?_eq_none_iff.mp hnone
        have hperm := sortDescBy_perm (scoreGt policy)
          (assets.filter (fun a => is_valid_apk_asset a incl excl))
        rw [hsortnil] at hperm
        exact absurd hperm.symm.eq_nil hne
      · intro h
        exact absurd h hne
  · intro b hb
    unfold select_best_apk at hb
    by_cases hv : (assets.filter (fun a => is_valid_apk_asset a incl excl)).isEmpty = true
    · rw [if_pos hv] at hb
      cases hb
    · rw [if_neg hv] at hb
      exact sortDescBy_head_max (scoreGt policy)
        (fun a b h => lexGtII_asymm _ _ h)
        (fun a b c h1 h2 => lexGtII_negtrans _ _ _ h1 h2)
        (assets.filter (fun a => is_valid_apk_asset a incl excl)) b hb
  · intro a h
    exact ⟨by simp [score_asset, h], by simp [score_asset, h]⟩
  · intro a h
    exact ⟨by simp [score_asset, h], by simp [score_asset, h]⟩
  · intro a h
    exact ⟨by simp [score_asset, h], by simp [score_asset, h]⟩
  · intro a h
    rcases h with h | h
    · exact ⟨by simp [score_asset, h], by simp [score_asset, h]⟩
    · exact ⟨by simp [score_asset, h], by simp [score_asset, h]⟩

/-- Witness for the C6 amended theorem at a concrete asset list. -/
theorem C6_witness :
    (Asset.mk "app-universal.apk" 20 none) ∈
      ([Asset.mk "app-armv7.apk" 10 none, Asset.mk "app-universal.apk" 20 none].filter
        (fun a => is_valid_apk_asset a [] [])) ∧
    scoreGt "arm_preferred" (Asset.mk "app-armv7.apk" 10 none)
      (Asset.mk "app-universal.apk" 20 none) = false ∧
    select_best_apk [] [] [] "arm_preferred" = none := by
  have h := (C6_select_best_apk_amended
      [Asset.mk "app-armv7.apk" 10 none, Asset.mk "app-universal.apk" 20 none]
      [] [] "arm_preferred").2.1 (Asset.mk "app-universal.apk" 20 none) (by decide)
  exact ⟨h.1, h.2 _ (by decide),
    (C6_select_best_apk_amended [] [] [] "arm_preferred").1.mpr rfl⟩

/-! Index builder (src/scripts/index_builder.py).  The clock
(get_current_timestamp_ms) is injected as an explicit `now` argument. -/

/-- First element of a list value (Python `xs[0]`, reached by the code
only on non-empty lists). -/
def jIndex0 : JVal → JVal
  | JVal.arr (x :: _) => x
  | _ => JVal.null

/-- Published metadata block of an app configuration
(app_config.get("metadata", {}) with the keys build_package_object
reads, each already defaulted as the code's .get calls do). -/
structure MetadataConfig where
  categories : List String
  license : String
  source_url : String
  issue_tracker : String
  anti_features : List String

/-- One app configuration from apps.yaml, projected to the keys
process_app reads, each already defaulted as the code's .get calls do. -/
structure AppConfig where
  logical_id : String
  github : String
  allowed_ids : List String
  allow_pkg_change : Bool
  allow_signature_change : Bool
  abi_policy : String
  retain_versions : Option Int
  include_keywords : List String
  exclude_keywords : List String
  metadata_config : MetadataConfig

/-- Repository descriptor configuration (config.get("repo", {}),
projected to the keys build_index reads; `none` models a missing key). -/
structure RepoConfig where
  name : Option JVal
  description : Option JVal
  url : Option JVal
  icon : Option JVal

/-- Repo object (index_builder.build_repo_object). -/
def build_repo_object (name description url : JVal) (icon : Option JVal) (now : Int) : JVal :=
  let repo : List (String × JVal) :=
    [("name", name), ("description", description), ("address", url),
     ("timestamp", JVal.int now)]
  match icon with
  | some i => if jTruthy i = true then JVal.obj (repo ++ [("icon", i)]) else JVal.obj repo
  | none => JVal.obj repo

/-- Version object (index_builder.build_version_object). -/
def build_version_object (metadata : Metadata) (download_url : String)
    (added_timestamp : Option Int) (now : Int) : JVal :=
  let added := added_timestamp.getD now
  let signer : JVal :=
    if pyTruthyS metadata.signing_cert_sha256 = true then
      JVal.obj [("sha256", JVal.arr [JVal.str (metadata.signing_cert_sha256.getD "")])]
    else JVal.obj []
  let manifest : List (String × JVal) :=
    [("versionName", JVal.str metadata.version_name),
     ("versionCode", JVal.int (metadata.version_code.getD 0)),
     ("usesSdk", JVal.obj
        [("minSdkVersion", JVal.int metadata.min_sdk_version),
         ("targetSdkVersion", JVal.int metadata.target_sdk_version)]),
     ("signer", signer)]
  let manifest :=
    if metadata.native_code ≠ [] then
      manifest ++ [("nativecode", JVal.arr (metadata.native_code.map JVal.str))]
    else manifest
  let manifest :=
    if metadata.permissions.isEmpty = false then
      manifest ++ [("usesPermission", JVal.arr metadata.permissions)]
    else manifest
  JVal.obj
    [("added", JVal.int added),
     ("file", JVal.obj
        [("name", JVal.str download_url),
         ("sha256", JVal.str metadata.sha256),
         ("size", JVal.int metadata.size)]),
     ("manifest", JVal.obj manifest)]

/-- The versions dict keyed by sha256 built inside build_package_object
(versions with a falsy sha256 are dropped; colliding hashes last-write-win). -/
def versionsDictOf (versions : List JVal) : List (String × JVal) :=
  versions.foldl (fun d v =>
    let sha256 := jGetD (jGetD v "file" (JVal.obj [])) "sha256" (JVal.str "")
    if jTruthy sha256 = true then pyDictSet d (jKeyStr sha256) v else d) []

/-- Package object (index_builder.build_package_object). -/
def build_package_object (package_id : String) (versions : List JVal)
    (app_config : AppConfig) (added_timestamp : Option Int) (now : Int) : JVal :=
  let added := added_timestamp.getD now
  let metadata_config := app_config.metadata_config
  let md : List (String × JVal) :=
    [("added", JVal.int added), ("lastUpdated", JVal.int now)]
  let md :=
    if metadata_config.categories ≠ [] then
      md ++ [("categories", JVal.arr (metadata_config.categories.map JVal.str))]
    else md
  let md :=
    if metadata_config.license ≠ "" then
      md ++ [("license", JVal.str metadata_config.license)]
    else md
  let md :=
    if metadata_config.source_url ≠ "" then
      md ++ [("sourceCode", JVal.str metadata_config.source_url)]
    else md
  let md :=
    if metadata_config.issue_tracker ≠ "" then
      md ++ [("issueTracker", JVal.str metadata_config.issue_tracker)]
    else md
  let md :=
    if metadata_config.anti_features ≠ [] then
      md ++ [("antiFeatures", JVal.arr (metadata_config.anti_features.map JVal.str))]
    else md
  let md :=
    match versions with
    | [] => md
    | v :: _ =>
      let signer := jGetD (jGetD v "manifest" (JVal.obj [])) "signer" (JVal.obj [])
      let signer_sha := jGetD signer "sha256" (JVal.arr [])
      if jTruthy signer_sha = true then
        md ++ [("preferredSigner", jIndex0 signer_sha)]
      else md
  JVal.obj [("metadata", JVal.obj md), ("versions", JVal.obj (versionsDictOf versions))]

/-- Complete index-v2 structure (index_builder.build_index). -/
def build_index (repo_config : RepoConfig) (packages_data : List (String × JVal))
    (now : Int) : JVal :=
  JVal.obj
    [("repo", build_repo_object
        (repo_config.name.getD (JVal.obj [("en-US", JVal.str "F-Droid Repo")]))
        (repo_config.description.getD (JVal.obj [("en-US", JVal.str "F-Droid Repository")]))
        (repo_config.url.getD (JVal.str ""))
        repo_config.icon now),
     ("packages", JVal.obj packages_data)]

/-- The latest-version loop of build_index_v1: track the version with
the strictly greatest versionCode seen so far, starting from -1. -/
def find_latest_loop (acc : Option JVal × Int) :
    List (String × JVal) → Option JVal × Int
  | [] => acc
  | p :: ps =>
    let version_code := manifestVersionCode p.2
    find_latest_loop (if version_code > acc.2 then (some p.2, version_code) else acc) ps

/-- Latest-version selection over a package's versions dict
(the inner loop of index_builder.build_index_v1). -/
def find_latest (versions : List (String × JVal)) : Option JVal × Int :=
  find_latest_loop (none, -1) versions

/-- Flat index-v1 entry projected from a package's latest version
(the package_entry construction inside index_builder.build_index_v1). -/
def package_entry (package_id : String) (latest_version : JVal) : JVal :=
  let manifest := jGetD latest_version "manifest" (JVal.obj [])
  let file_info := jGetD latest_version "file" (JVal.obj [])
  let entry : List (String × JVal) :=
    [("packageName", JVal.str package_id),
     ("versionName", jGetD manifest "versionName" (JVal.str "")),
     ("versionCode", jGetD manifest "versionCode" (JVal.int 0)),
     ("size", jGetD file_info "size" (JVal.int 0)),
     ("hash", jGetD file_info "sha256" (JVal.str "")),
     ("hashType", JVal.str "sha256")]
  let uses_sdk := jGetD manifest "usesSdk" (JVal.obj [])
  let entry :=
    if jTruthy (jGetD uses_sdk "minSdkVersion" JVal.null) = true then
      entry ++ [("minSdkVersion", jGetD uses_sdk "minSdkVersion" JVal.null)]
    else entry
  let entry :=
    if jTruthy (jGetD uses_sdk "targetSdkVersion" JVal.null) = true then
      entry ++ [("targetSdkVersion", jGetD uses_sdk "targetSdkVersion" JVal.null)]
    else entry
  let entry :=
    if jTruthy (jGetD manifest "nativecode" JVal.null) = true then
      entry ++ [("nativecode", jGetD manifest "nativecode" JVal.null)]
    else entry
  let signer := jGetD manifest "signer" (JVal.obj [])
  let entry :=
    if jTruthy (jGetD signer "sha256" JVal.null) = true then
      entry ++ [("sig", jIndex0 (jGetD signer "sha256" JVal.null))]
    else entry
  JVal.obj entry

/-- Simplified index-v1 structure (index_builder.build_index_v1); the
repo_config argument is accepted and ignored exactly as in the source.
The `if latest_version:` guard is a Python truthiness test: it fails
both when no version was selected (None) and when the selected version
is a falsy value such as an empty object. -/
def build_index_v1 (repo_config : RepoConfig)
    (packages_data : List (String × JVal)) : JVal :=
  let packages_list := packages_data.foldl (fun acc p =>
    let versions := jFields (jGetD p.2 "versions" (JVal.obj []))
    match (find_latest versions).1 with
    | some latest_version =>
      if jTruthy latest_version = true then acc ++ [package_entry p.1 latest_version]
      else acc
    | none => acc) []
  JVal.obj [("packages", JVal.arr packages_list)]

/-- Structural invariant check on the index
(index_builder.validate_index_structure). -/
def validate_index_structure (index : JVal) : Bool × List String :=
  let repo_errors : List String :=
    match jGet index "repo" with
    | none => ["Missing 'repo' object"]
    | some repo =>
      (if (jGet repo "name").isSome then [] else ["Missing repo.name"]) ++
      (if (jGet repo "description").isSome then [] else ["Missing repo.description"]) ++
      (if (jGet repo "address").isSome then [] else ["Missing repo.address"]) ++
      (if (jGet repo "timestamp").isSome then [] else ["Missing repo.timestamp"])
  let packages_errors : List String :=
    match jGet index "packages" with
    | none => ["Missing 'packages' object"]
    | some (JVal.obj _) => []
    | some _ => ["'packages' must be an object"]
  let errors := repo_errors ++ packages_errors
  (errors.isEmpty, errors)

theorem find_latest_loop_spec (vs : List (String × JVal)) :
    ∀ acc : Option JVal × Int,
      (find_latest_loop acc vs = acc ∧
        ∀ q ∈ vs, manifestVersionCode q.2 ≤ acc.2) ∨
      (∃ l1 p l2, vs = l1 ++ p :: l2 ∧
        find_latest_loop acc vs = (some p.2, manifestVersionCode p.2) ∧
        acc.2 < manifestVersionCode p.2 ∧
        (∀ q ∈ l1, manifestVersionCode q.2 < manifestVersionCode p.2) ∧
        (∀ q ∈ vs, manifestVersionCode q.2 ≤ manifestVersionCode p.2)) := by
  induction vs with
  | nil => intro acc; exact Or.inl ⟨rfl, by simp⟩
  | cons p0 ps ih =>
    intro acc
    by_cases h0 : manifestVersionCode p0.2 > acc.2
    · have hstep : find_latest_loop acc (p0 :: ps) =
          find_latest_loop (some p0.2, manifestVersionCode p0.2) ps := by
        simp only [find_latest_loop]
        rw [if_pos h0]
      rcases ih (some p0.2, manifestVersionCode p0.2) with ⟨heq, hall⟩ | ⟨l1, p, l2, hsplit, heq, hlt, hl1, hall⟩
      · refine Or.inr ⟨[], p0, ps, by simp, ?_, h0, by simp, ?_⟩
        · rw [hstep, heq]
        · intro q hq
          rcases List.mem_cons.mp hq with rfl | hq
          · exact le_refl _
          · exact hall q hq
      · refine Or.inr ⟨p0 :: l1, p, l2, by simp [hsplit], ?_, ?_, ?_, ?_⟩
        · rw [hstep, heq]
        · exact lt_trans h0 hlt
        · intro q hq
          rcases List.mem_cons.mp hq with rfl | hq
          · exact hlt
          · exact hl1 q hq
        · intro q hq
          rcases List.mem_cons.mp hq with rfl | hq
          · exact le_of_lt hlt
          · exact hall q (hsplit ▸ hq)
    · have hstep : find_latest_loop acc (p0 :: ps) = find_latest_loop acc ps := by
        simp only [find_latest_loop]
        rw [if_neg h0]
      rcases ih acc with ⟨heq, hall⟩ | ⟨l1, p, l2, hsplit, heq, hlt, hl1, hall⟩
      · refine Or.inl ⟨by rw [hstep, heq], ?_⟩
        intro q hq
        rcases List.mem_cons.mp hq with rfl | hq
        · omega
        · exact hall q hq
      · refine Or.inr ⟨p0 :: l1, p, l2, by simp [hsplit], ?_, hlt, ?_, ?_⟩
        · rw [hstep, heq]
        · intro q hq
          rcases List.mem_cons.mp hq with rfl | hq
          · omega
          · exact hl1 q hq
        · intro q hq
          rcases List.mem_cons.mp hq with rfl | hq
          · omega
          · exact hall q (hsplit ▸ hq)

theorem foldl_append_option {α β : Type} (g : α → Option β) (l : List α) :
    ∀ acc : List β,
      l.foldl (fun acc x => match g x with
        | some y => acc ++ [y]
        | none => acc) acc = acc ++ l.filterMap g := by
  induction l with
  | nil => intro acc; simp
  | cons x xs ih =>
    intro acc
    simp only [List.foldl_cons, List.filterMap_cons]
    cases hg : g x with
    | none => rw [ih acc]
    | some y =>
      rw [ih (acc ++ [y])]
      simp

theorem build_index_v1_loop_eq (pkgs : List (String × JVal)) :
    List.foldl (fun acc p =>
      let versions := jFields (jGetD p.2 "versions" (JVal.obj []))
      match (find_latest versions).1 with
      | some latest_version =>
        if jTruthy latest_version = true then acc ++ [package_entry p.1 latest_version]
        else acc
      | none => acc) [] pkgs =
    pkgs.filterMap (fun p =>
      match (find_latest (jFields (jGetD p.2 "versions" (JVal.obj [])))).1 with
      | some latest_version =>
        if jTruthy latest_version = true then some (package_entry p.1 latest_version)
        else none
      | none => none) := by
  suffices h : ∀ acc : List JVal,
      List.foldl (fun acc p =>
        let versions := jFields (jGetD p.2 "versions" (JVal.obj []))
        match (find_latest versions).1 with
        | some latest_version =>
          if jTruthy latest_version = true then acc ++ [package_entry p.1 latest_version]
          else acc
        | none => acc) acc pkgs =
      acc ++ pkgs.filterMap (fun p =>
        match (find_latest (jFields (jGetD p.2 "versions" (JVal.obj [])))).1 with
        | some latest_version =>
          if jTruthy latest_version = true then some (package_entry p.1 latest_version)
          else none
        | none => none) by
    simpa using h []
  induction pkgs with
  | nil => intro acc; simp
  | cons x xs ih =>
    intro acc
    simp only [List.foldl_cons, List.filterMap_cons]
    cases hv : (find_latest (jFields (jGetD x.2 "versions" (JVal.obj [])))).1 with
    | none =>
      simp only [hv]
      exact ih acc
    | some y =>
      by_cases ht : jTruthy y = true
      · simp only [hv, ht, eq_self_iff_true, if_true]
        rw [ih (acc ++ [package_entry x.1 y])]
        simp
      · rw [Bool.not_eq_true] at ht
        simp only [hv, ht, Bool.false_eq_true, if_false]
        exact ih acc

/-- C7 counterexample: two packages with one version each yield no flat
entry at all in build_index_v1, contradicting "exactly one flat entry
per package with at least one version": one whose version carries
versionCode -1 (the latest-version tracker starts at -1 and only
strictly greater codes are taken), and one whose version is the empty
object (its versionCode reads 0 > -1, so it is selected, but the
truthiness guard on the selected version then fails). -/
theorem C7_counterexample :
    (jFields (jGetD
      (JVal.obj [("metadata", JVal.obj []),
        ("versions", JVal.obj [("h1",
          JVal.obj [("manifest", JVal.obj [("versionCode", JVal.int (-1))])])])])
      "versions" (JVal.obj []))).length = 1 ∧
    build_index_v1 (RepoConfig.mk none none none none)
      [("com.example.app",
        JVal.obj [("metadata", JVal.obj []),
          ("versions", JVal.obj [("h1",
            JVal.obj [("manifest", JVal.obj [("versionCode", JVal.int (-1))])])])])] =
      JVal.obj [("packages", JVal.arr [])] ∧
    (jFields (jGetD
      (JVal.obj [("metadata", JVal.obj []),
        ("versions", JVal.obj [("h2", JVal.obj [])])])
      "versions" (JVal.obj []))).length = 1 ∧
    manifestVersionCode (JVal.obj []) = 0 ∧
    build_index_v1 (RepoConfig.mk none none none none)
      [("com.example.empty",
        JVal.obj [("metadata", JVal.obj []),
          ("versions", JVal.obj [("h2", JVal.obj [])])])] =
      JVal.obj [("packages", JVal.arr [])] :=
  ⟨rfl, rfl, rfl, rfl, rfl⟩

/-- C7 amended: build_index_v1 after build_index produces, for each
package whose selected latest version exists and is truthy, exactly one
flat entry projected from that version, which is the first version (in
the versions mapping's iteration order) attaining the numerically
highest versionCode, provided that code exceeds -1; a package whose
versions all have versionCode at most -1, or whose selected latest
version is a falsy value (such as an empty object), contributes no
entry. -/
theorem C7_build_index_v1_amended (rc : RepoConfig) (pkgs : List (String × JVal)) :
    jGet (build_index_v1 rc pkgs) "packages" =
      some (JVal.arr (pkgs.filterMap (fun p =>
        match (find_latest (jFields (jGetD p.2 "versions" (JVal.obj [])))).1 with
        | some latest_version =>
          if jTruthy latest_version = true then some (package_entry p.1 latest_version)
          else none
        | none => none))) ∧
    (∀ vs : List (String × JVal),
      ((find_latest vs).1 = none ↔ ∀ q ∈ vs, manifestVersionCode q.2 ≤ -1)) ∧
    (∀ (vs : List (String × JVal)) (v : JVal), (find_latest vs).1 = some v →
      -1 < manifestVersionCode v ∧
      (∀ q ∈ vs, manifestVersionCode q.2 ≤ manifestVersionCode v) ∧
      ∃ l1 p l2, vs = l1 ++ p :: l2 ∧ p.2 = v ∧
        ∀ q ∈ l1, manifestVersionCode q.2 < manifestVersionCode v) := by
  refine ⟨?_, ?_, ?_⟩
  · unfold build_index_v1
    rw [build_index_v1_loop_eq]
    simp [jGet, alookup]
  · intro vs
    constructor
    · intro hnone q hq
      rcases find_latest_loop_spec vs (none, -1) with ⟨_, hall⟩ | ⟨l1, p, l2, hsplit, heq, _, _, _⟩
      · exact hall q hq
      · unfold find_latest at hnone
        rw [heq] at hnone
        cases hnone
    · intro hall
      rcases find_latest_loop_spec vs (none, -1) with ⟨heq, _⟩ | ⟨l1, p, l2, hsplit, heq, hlt, _, _⟩
      · unfold find_latest
        rw [heq]
      · have : manifestVersionCode p.2 ≤ -1 :=
          hall p (hsplit ▸ List.mem_append_right l1 (List.mem_cons_self p l2))
        omega
  · intro vs v hsome
    rcases find_latest_loop_spec vs (none, -1) with ⟨heq, _⟩ | ⟨l1, p, l2, hsplit, heq, hlt, hl1, hall⟩
    · unfold find_latest at hsome
      rw [heq] at hsome
      cases hsome
    · unfold find_latest at hsome
      rw [heq] at hsome
      have hv : p.2 = v := Option.some.inj hsome
      subst hv
      exact ⟨hlt, hall, l1, p, l2, hsplit, rfl, hl1⟩

/-- Witness for the C7 amended theorem at a two-version package
(codes 5 and 7): the selected version is the one with code 7, it bounds
both versions, and its code exceeds -1. -/
theorem C7_witness :
    -1 < manifestVersionCode
        (JVal.obj [("manifest", JVal.obj [("versionCode", JVal.int 7)])]) ∧
    manifestVersionCode
        (JVal.obj [("manifest", JVal.obj [("versionCode", JVal.int 5)])]) ≤
      manifestVersionCode
        (JVal.obj [("manifest", JVal.obj [("versionCode", JVal.int 7)])]) := by
  have h := (C7_build_index_v1_amended (RepoConfig.mk none none none none) []).2.2
    [("h1", JVal.obj [("manifest", JVal.obj [("versionCode", JVal.int 5)])]),
     ("h2", JVal.obj [("manifest", JVal.obj [("versionCode", JVal.int 7)])])]
    (JVal.obj [("manifest", JVal.obj [("versionCode", JVal.int 7)])]) rfl
  exact ⟨h.1, h.2.1 _ (List.mem_cons_self _ _)⟩

/-- The validator rule chain in the fixed order run by
AppValidator.validate_version: architecture, identifier allow-list,
signing continuity, and, when a version code is present, version
monotonicity then intra-run duplicate. -/
def orderedRuleResults (av : AppValidator) (m : Metadata) : List ValidationResult :=
  [validate_abi m av.abi_policy,
   validate_package_id m av.allowed_ids,
   validate_signature m av.cached_cert av.allow_signature_change] ++
  (match m.version_code with
   | some vc =>
     [validate_version_code vc av.cached_highest_version,
      validate_duplicate_version_code vc av.seen_version_codes]
   | none => [])

/-- The session's validation state as listed in spec section 4.3:
policy parameters, cached signing identity, cached highest version code
(the seen-set and the diagnostic message lists are kept separate). -/
def AppValidator.sessionCore (av : AppValidator) :
    String × String × List String × Bool × Bool × Option String × Option Int :=
  (av.logical_id, av.abi_policy, av.allowed_ids, av.allow_pkg_change,
   av.allow_signature_change, av.cached_cert, av.cached_highest_version)

theorem vv_result (av : AppValidator) (m : Metadata) :
    (av.validate_version m).1 =
      (match (orderedRuleResults av m).find? (fun r => !r.is_valid) with
       | some bad => bad
       | none => ⟨true, "", ""⟩) := by
  by_cases h1 : (validate_abi m av.abi_policy).is_valid = false
  · simp [AppValidator.validate_version, orderedRuleResults, List.find?, h1]
  · by_cases h2 : (validate_package_id m av.allowed_ids).is_valid = false
    · simp [AppValidator.validate_version, orderedRuleResults, List.find?, h1, h2, apply_ite AppValidator.allowed_ids,
        apply_ite AppValidator.cached_cert, apply_ite AppValidator.allow_signature_change,
        apply_ite AppValidator.cached_highest_version, apply_ite AppValidator.seen_version_codes,
        apply_ite AppValidator.logical_id, apply_ite AppValidator.abi_policy,
        apply_ite AppValidator.allow_pkg_change, apply_ite AppValidator.validation_errors,
        apply_ite AppValidator.validation_warnings]
    · by_cases h3 : (validate_signature m av.cached_cert av.allow_signature_change).is_valid = false
      · simp [AppValidator.validate_version, orderedRuleResults, List.find?, h1, h2, h3, apply_ite AppValidator.allowed_ids,
        apply_ite AppValidator.cached_cert, apply_ite AppValidator.allow_signature_change,
        apply_ite AppValidator.cached_highest_version, apply_ite AppValidator.seen_version_codes,
        apply_ite AppValidator.logical_id, apply_ite AppValidator.abi_policy,
        apply_ite AppValidator.allow_pkg_change, apply_ite AppValidator.validation_errors,
        apply_ite AppValidator.validation_warnings]
      · cases hvc : m.version_code with
        | none =>
          simp [AppValidator.validate_version, orderedRuleResults, List.find?,
            h1, h2, h3, hvc, apply_ite AppValidator.allowed_ids,
        apply_ite AppValidator.cached_cert, apply_ite AppValidator.allow_signature_change,
        apply_ite AppValidator.cached_highest_version, apply_ite AppValidator.seen_version_codes,
        apply_ite AppValidator.logical_id, apply_ite AppValidator.abi_policy,
        apply_ite AppValidator.allow_pkg_change, apply_ite AppValidator.validation_errors,
        apply_ite AppValidator.validation_warnings]
        | some vc =>
          by_cases h4 : (validate_version_code vc av.cached_highest_version).is_valid = false
          · simp [AppValidator.validate_version, orderedRuleResults, List.find?,
              h1, h2, h3, hvc, h4, apply_ite AppValidator.allowed_ids,
        apply_ite AppValidator.cached_cert, apply_ite AppValidator.allow_signature_change,
        apply_ite AppValidator.cached_highest_version, apply_ite AppValidator.seen_version_codes,
        apply_ite AppValidator.logical_id, apply_ite AppValidator.abi_policy,
        apply_ite AppValidator.allow_pkg_change, apply_ite AppValidator.validation_errors,
        apply_ite AppValidator.validation_warnings]
          · by_cases h5 : (validate_duplicate_version_code vc av.seen_version_codes).is_valid = false
            · simp [AppValidator.validate_version, orderedRuleResults, List.find?,
                h1, h2, h3, hvc, h4, h5, apply_ite AppValidator.allowed_ids,
        apply_ite AppValidator.cached_cert, apply_ite AppValidator.allow_signature_change,
        apply_ite AppValidator.cached_highest_version, apply_ite AppValidator.seen_version_codes,
        apply_ite AppValidator.logical_id, apply_ite AppValidator.abi_policy,
        apply_ite AppValidator.allow_pkg_change, apply_ite AppValidator.validation_errors,
        apply_ite AppValidator.validation_warnings]
            · simp [AppValidator.validate_version, orderedRuleResults, List.find?,
                h1, h2, h3, hvc, h4, h5, apply_ite AppValidator.allowed_ids,
        apply_ite AppValidator.cached_cert, apply_ite AppValidator.allow_signature_change,
        apply_ite AppValidator.cached_highest_version, apply_ite AppValidator.seen_version_codes,
        apply_ite AppValidator.logical_id, apply_ite AppValidator.abi_policy,
        apply_ite AppValidator.allow_pkg_change, apply_ite AppValidator.validation_errors,
        apply_ite AppValidator.validation_warnings]

theorem vv_seen (av : AppValidator) (m : Metadata) :
    (av.validate_version m).2.seen_version_codes =
      (if (av.validate_version m).1.is_valid = true then
        match m.version_code with
        | some vc => insert vc av.seen_version_codes
        | none => av.seen_version_codes
      else av.seen_version_codes) := by
  by_cases h1 : (validate_abi m av.abi_policy).is_valid = false
  · simp [AppValidator.validate_version, h1]
  · by_cases h2 : (validate_package_id m av.allowed_ids).is_valid = false
    · simp [AppValidator.validate_version, h1, h2, apply_ite AppValidator.allowed_ids,
        apply_ite AppValidator.cached_cert, apply_ite AppValidator.allow_signature_change,
        apply_ite AppValidator.cached_highest_version, apply_ite AppValidator.seen_version_codes,
        apply_ite AppValidator.logical_id, apply_ite AppValidator.abi_policy,
        apply_ite AppValidator.allow_pkg_change, apply_ite AppValidator.validation_errors,
        apply_ite AppValidator.validation_warnings]
    · by_cases h3 : (validate_signature m av.cached_cert av.allow_signature_change).is_valid = false
      · simp [AppValidator.validate_version, h1, h2, h3, apply_ite AppValidator.allowed_ids,
        apply_ite AppValidator.cached_cert, apply_ite AppValidator.allow_signature_change,
        apply_ite AppValidator.cached_highest_version, apply_ite AppValidator.seen_version_codes,
        apply_ite AppValidator.logical_id, apply_ite AppValidator.abi_policy,
        apply_ite AppValidator.allow_pkg_change, apply_ite AppValidator.validation_errors,
        apply_ite AppValidator.validation_warnings]
      · cases hvc : m.version_code with
        | none =>
          simp [AppValidator.validate_version, h1, h2, h3, hvc, apply_ite AppValidator.allowed_ids,
        apply_ite AppValidator.cached_cert, apply_ite AppValidator.allow_signature_change,
        apply_ite AppValidator.cached_highest_version, apply_ite AppValidator.seen_version_codes,
        apply_ite AppValidator.logical_id, apply_ite AppValidator.abi_policy,
        apply_ite AppValidator.allow_pkg_change, apply_ite AppValidator.validation_errors,
        apply_ite AppValidator.validation_warnings]
        | some vc =>
          by_cases h4 : (validate_version_code vc av.cached_highest_version).is_valid = false
          · simp [AppValidator.validate_version, h1, h2, h3, hvc, h4, apply_ite AppValidator.allowed_ids,
        apply_ite AppValidator.cached_cert, apply_ite AppValidator.allow_signature_change,
        apply_ite AppValidator.cached_highest_version, apply_ite AppValidator.seen_version_codes,
        apply_ite AppValidator.logical_id, apply_ite AppValidator.abi_policy,
        apply_ite AppValidator.allow_pkg_change, apply_ite AppValidator.validation_errors,
        apply_ite AppValidator.validation_warnings]
          · by_cases h5 : (validate_duplicate_version_code vc av.seen_version_codes).is_valid = false
            · simp [AppValidator.validate_version, h1, h2, h3, hvc, h4, h5, apply_ite AppValidator.allowed_ids,
        apply_ite AppValidator.cached_cert, apply_ite AppValidator.allow_signature_change,
        apply_ite AppValidator.cached_highest_version, apply_ite AppValidator.seen_version_codes,
        apply_ite AppValidator.logical_id, apply_ite AppValidator.abi_policy,
        apply_ite AppValidator.allow_pkg_change, apply_ite AppValidator.validation_errors,
        apply_ite AppValidator.validation_warnings]
            · simp [AppValidator.validate_version, h1, h2, h3, hvc, h4, h5, apply_ite AppValidator.allowed_ids,
        apply_ite AppValidator.cached_cert, apply_ite AppValidator.allow_signature_change,
        apply_ite AppValidator.cached_highest_version, apply_ite AppValidator.seen_version_codes,
        apply_ite AppValidator.logical_id, apply_ite AppValidator.abi_policy,
        apply_ite AppValidator.allow_pkg_change, apply_ite AppValidator.validation_errors,
        apply_ite AppValidator.validation_warnings]

theorem vv_core (av : AppValidator) (m : Metadata) :
    (av.validate_version m).2.sessionCore = av.sessionCore := by
  by_cases h1 : (validate_abi m av.abi_policy).is_valid = false
  · simp [AppValidator.validate_version, AppValidator.sessionCore, h1]
  · by_cases h2 : (validate_package_id m av.allowed_ids).is_valid = false
    · simp [AppValidator.validate_version, AppValidator.sessionCore, h1, h2, apply_ite AppValidator.allowed_ids,
        apply_ite AppValidator.cached_cert, apply_ite AppValidator.allow_signature_change,
        apply_ite AppValidator.cached_highest_version, apply_ite AppValidator.seen_version_codes,
        apply_ite AppValidator.logical_id, apply_ite AppValidator.abi_policy,
        apply_ite AppValidator.allow_pkg_change, apply_ite AppValidator.validation_errors,
        apply_ite AppValidator.validation_warnings]
    · by_cases h3 : (validate_signature m av.cached_cert av.allow_signature_change).is_valid = false
      · simp [AppValidator.validate_version, AppValidator.sessionCore, h1, h2, h3, apply_ite AppValidator.allowed_ids,
        apply_ite AppValidator.cached_cert, apply_ite AppValidator.allow_signature_change,
        apply_ite AppValidator.cached_highest_version, apply_ite AppValidator.seen_version_codes,
        apply_ite AppValidator.logical_id, apply_ite AppValidator.abi_policy,
        apply_ite AppValidator.allow_pkg_change, apply_ite AppValidator.validation_errors,
        apply_ite AppValidator.validation_warnings]
      · cases hvc : m.version_code with
        | none =>
          simp [AppValidator.validate_version, AppValidator.sessionCore, h1, h2, h3, hvc, apply_ite AppValidator.allowed_ids,
        apply_ite AppValidator.cached_cert, apply_ite AppValidator.allow_signature_change,
        apply_ite AppValidator.cached_highest_version, apply_ite AppValidator.seen_version_codes,
        apply_ite AppValidator.logical_id, apply_ite AppValidator.abi_policy,
        apply_ite AppValidator.allow_pkg_change, apply_ite AppValidator.validation_errors,
        apply_ite AppValidator.validation_warnings]
        | some vc =>
          by_cases h4 : (validate_version_code vc av.cached_highest_version).is_valid = false
          · simp [AppValidator.validate_version, AppValidator.sessionCore,
              h1, h2, h3, hvc, h4, apply_ite AppValidator.allowed_ids,
        apply_ite AppValidator.cached_cert, apply_ite AppValidator.allow_signature_change,
        apply_ite AppValidator.cached_highest_version, apply_ite AppValidator.seen_version_codes,
        apply_ite AppValidator.logical_id, apply_ite AppValidator.abi_policy,
        apply_ite AppValidator.allow_pkg_change, apply_ite AppValidator.validation_errors,
        apply_ite AppValidator.validation_warnings]
          · by_cases h5 : (validate_duplicate_version_code vc av.seen_version_codes).is_valid = false
            · simp [AppValidator.validate_version, AppValidator.sessionCore,
                h1, h2, h3, hvc, h4, h5, apply_ite AppValidator.allowed_ids,
        apply_ite AppValidator.cached_cert, apply_ite AppValidator.allow_signature_change,
        apply_ite AppValidator.cached_highest_version, apply_ite AppValidator.seen_version_codes,
        apply_ite AppValidator.logical_id, apply_ite AppValidator.abi_policy,
        apply_ite AppValidator.allow_pkg_change, apply_ite AppValidator.validation_errors,
        apply_ite AppValidator.validation_warnings]
            · simp [AppValidator.validate_version, AppValidator.sessionCore,
                h1, h2, h3, hvc, h4, h5, apply_ite AppValidator.allowed_ids,
        apply_ite AppValidator.cached_cert, apply_ite AppValidator.allow_signature_change,
        apply_ite AppValidator.cached_highest_version, apply_ite AppValidator.seen_version_codes,
        apply_ite AppValidator.logical_id, apply_ite AppValidator.abi_policy,
        apply_ite AppValidator.allow_pkg_change, apply_ite AppValidator.validation_errors,
        apply_ite AppValidator.validation_warnings]

/-- C8: validate_version runs the rules in the fixed order and returns
the first Invalid outcome (or Valid if none fails); on acceptance the
version code, when present, is inserted into the seen-set; the seen-set
is otherwise unchanged, a rejected record never changes it, and the
session's validation state of spec section 4.3 (policy parameters,
cached signing identity, cached highest version code) is never mutated
at all — the seen-set insertion is the only validation-state mutation.
(The diagnostic message lists, which feed the reported diagnostics
stream, accumulate separately.) -/
theorem C8_validate_version_chain (av : AppValidator) (m : Metadata) :
    (∀ bad, (orderedRuleResults av m).find? (fun r => !r.is_valid) = some bad →
      (av.validate_version m).1 = bad) ∧
    ((orderedRuleResults av m).find? (fun r => !r.is_valid) = none →
      (av.validate_version m).1 = ⟨true, "", ""⟩) ∧
    (∀ vc, (av.validate_version m).1.is_valid = true → m.version_code = some vc →
      (av.validate_version m).2.seen_version_codes = insert vc av.seen_version_codes) ∧
    ((av.validate_version m).1.is_valid = true → m.version_code = none →
      (av.validate_version m).2.seen_version_codes = av.seen_version_codes) ∧
    ((av.validate_version m).1.is_valid = false →
      (av.validate_version m).2.seen_version_codes = av.seen_version_codes) ∧
    (av.validate_version m).2.sessionCore = av.sessionCore := by
  refine ⟨?_, ?_, ?_, ?_, ?_, vv_core av m⟩
  · intro bad hb
    rw [vv_result av m, hb]
  · intro hb
    rw [vv_result av m, hb]
  · intro vc hval hvc
    rw [vv_seen av m, if_pos hval, hvc]
  · intro hval hvc
    rw [vv_seen av m, if_pos hval, hvc]
  · intro hval
    rw [vv_seen av m, if_neg (by simp [hval])]

/-- Witness for C8: an accepted record inserts its version code into
the seen-set; a rejected (x86) record leaves the seen-set empty. -/
theorem C8_witness :
    ((AppValidator.mk "app1" "arm_preferred" [] false false none none ∅ [] []).validate_version
        mdV7).2.seen_version_codes = insert 10 (∅ : Finset Int) ∧
    ((AppValidator.mk "app1" "arm_preferred" [] false false none none ∅ [] []).validate_version
        mdX86).2.seen_version_codes = (∅ : Finset Int) :=
  ⟨(C8_validate_version_chain
      (AppValidator.mk "app1" "arm_preferred" [] false false none none ∅ [] [])
      mdV7).2.2.1 10 (by decide) rfl,
   (C8_validate_version_chain
      (AppValidator.mk "app1" "arm_preferred" [] false false none none ∅ [] [])
      mdX86).2.2.2.2.1 (by decide)⟩

/-- Repeated application of the session's validate operation within one
run (the per-release validation loop of main.process_app), returning the
final session and the outcomes in order. -/
def validateRun (av : AppValidator) : List Metadata → AppValidator × List ValidationResult
  | [] => (av, [])
  | m :: ms =>
    let r := av.validate_version m
    let rest := validateRun r.2 ms
    (rest.1, r.1 :: rest.2)

/-- C10: a metadata record passing the architecture, identifier and
signature rules but carrying no version code is accepted with the
version-monotonicity and duplicate rules skipped, nothing is added to
the seen-set, and arbitrarily many copies of such a record are all
accepted in one run. -/
theorem C10_missing_version_code (av : AppValidator) (m : Metadata)
    (h1 : (validate_abi m av.abi_policy).is_valid = true)
    (h2 : (validate_package_id m av.allowed_ids).is_valid = true)
    (h3 : (validate_signature m av.cached_cert av.allow_signature_change).is_valid = true)
    (h0 : m.version_code = none) :
    (av.validate_version m).1 = ⟨true, "", ""⟩ ∧
    (av.validate_version m).2.seen_version_codes = av.seen_version_codes ∧
    ∀ n : Nat,
      ((validateRun av (List.replicate n m)).2.all (fun r => r.is_valid)) = true := by
  have hstep : ∀ b : AppValidator, b.sessionCore = av.sessionCore →
      (b.validate_version m).1 = ⟨true, "", ""⟩ := by
    intro b hb
    simp only [AppValidator.sessionCore, Prod.mk.injEq] at hb
    obtain ⟨-, hpol, hids, -, hsig, hcert, -⟩ := hb
    rw [vv_result b m]
    have hfind : (orderedRuleResults b m).find? (fun r => !r.is_valid) = none := by
      simp [orderedRuleResults, List.find?, h0, hpol, hids, hcert, hsig, h1, h2, h3]
    rw [hfind]
  have hself : (av.validate_version m).1 = ⟨true, "", ""⟩ := hstep av rfl
  refine ⟨hself, ?_, ?_⟩
  · rw [vv_seen av m, if_pos (by rw [hself]), h0]
  · have hrun : ∀ (n : Nat) (b : AppValidator), b.sessionCore = av.sessionCore →
        ((validateRun b (List.replicate n m)).2.all (fun r => r.is_valid)) = true := by
      intro n
      induction n with
      | zero => intro b _; rfl
      | succ k ih =>
        intro b hb
        simp only [List.replicate_succ, validateRun]
        rw [List.all_cons]
        have hhd : (b.validate_version m).1.is_valid = true := by rw [hstep b hb]
        rw [hhd, ih (b.validate_version m).2 ((vv_core b m).trans hb)]
        rfl
    intro n
    exact hrun n av rfl

/-- Witness for C10 at a concrete record with no version code. -/
theorem C10_witness :
    ((AppValidator.mk "app1" "arm_preferred" [] false false none none ∅ [] []).validate_version
        (Metadata.mk "com.example.app" "1.0" none 21 34 [] ["arm64-v8a"] none "aa" 100)).1 =
      ⟨true, "", ""⟩ ∧
    ((AppValidator.mk "app1" "arm_preferred" [] false false none none ∅ [] []).validate_version
        (Metadata.mk "com.example.app" "1.0" none 21 34 [] ["arm64-v8a"] none "aa" 100)).2.seen_version_codes =
      (∅ : Finset Int) := by
  have h := C10_missing_version_code
    (AppValidator.mk "app1" "arm_preferred" [] false false none none ∅ [] [])
    (Metadata.mk "com.example.app" "1.0" none 21 34 [] ["arm64-v8a"] none "aa" 100)
    (by decide) (by decide) (by decide) rfl
  exact ⟨h.1, h.2.1⟩

/-! Run orchestrator (src/scripts/main.py) with the reporter
(src/scripts/reporter.py).  External effects are explicit inputs: the
GitHub fetch result and the APK extractor are oracles in ProcEnv, file
writes are success flags, and the clock is a fixed `now`. -/

/-- Severity levels (reporter.Severity). -/
inductive Severity where
  | error : Severity
  | warning : Severity
  | notice : Severity
deriving DecidableEq, Repr

/-- A single report entry (reporter.ReportEntry, file/line/column
location fields unused by the pipeline omitted). -/
structure ReportEntry where
  severity : Severity
  message : String
  logical_id : Option String
deriving DecidableEq, Repr

/-- Collected diagnostics (reporter.Reporter). -/
structure Reporter where
  entries : List ReportEntry
  failed_apps : List (String × List String)
  warning_apps : List (String × List String)
deriving DecidableEq, Repr

/-- Append a message to a per-app list in a dict of lists
(the per-app tracking inside reporter.Reporter.error/warning). -/
def pyDictAppend (m : List (String × List String)) (k v : String) :
    List (String × List String) :=
  if (alookup m k).isSome then
    m.map (fun p => if p.1 = k then (p.1, p.2 ++ [v]) else p)
  else m ++ [(k, [v])]

/-- Report an error (reporter.Reporter.error). -/
def Reporter.error (self : Reporter) (message : String) (logical_id : Option String) :
    Reporter :=
  let self := { self with entries := self.entries ++ [⟨Severity.error, message, logical_id⟩] }
  if pyTruthyS logical_id = true then
    { self with failed_apps := pyDictAppend self.failed_apps (logical_id.getD "") message }
  else self

/-- Report a warning (reporter.Reporter.warning). -/
def Reporter.warning (self : Reporter) (message : String) (logical_id : Option String) :
    Reporter :=
  let self := { self with entries := self.entries ++ [⟨Severity.warning, message, logical_id⟩] }
  if pyTruthyS logical_id = true then
    { self with warning_apps := pyDictAppend self.warning_apps (logical_id.getD "") message }
  else self

/-- Report a notice (reporter.Reporter.notice). -/
def Reporter.notice (self : Reporter) (message : String) (logical_id : Option String) :
    Reporter :=
  { self with entries := self.entries ++ [⟨Severity.notice, message, logical_id⟩] }

/-- Whether any app failed (reporter.Reporter.has_failures). -/
def Reporter.has_failures (self : Reporter) : Bool := !self.failed_apps.isEmpty

/-- A release as consumed by process_app (GitHub release dict projected
to the keys the loop reads). -/
structure Release where
  tag_name : Option String
  name : Option String
  assets : List Asset

/-- External oracles for processing one app: the fetch_releases outcome
(error = the RuntimeError path) and the process_apk extractor keyed by
download URL (error = the RuntimeError path). -/
structure ProcEnv where
  fetchResult : Except String (List Release)
  extract : String → Except String Metadata

/-- One app's cache record (metadata_cache.json entry). -/
structure CacheApp where
  package_id : String
  signing_cert : Option String
  highest_versionCode : Option Int

/-- The cross-run metadata cache, projected to the fields read:
cache["apps"] and cache["repo"]["max_versions_default"]. -/
structure Cache where
  apps : List (String × CacheApp)
  max_versions_default : Option Int

/-- Accumulator of the per-release loop in main.process_app. -/
structure LoopState where
  valid_versions : List JVal
  new_highest_version : Option Int
  new_signing_cert : Option String
  app_validator : AppValidator
  rep : Reporter

/-- Lookup of manifest packageName on one version object
(`v.get("manifest", {}).get("packageName")` in main.py). -/
def versionPkgName (v : JVal) : Option JVal :=
  jGet (jGetD v "manifest" (JVal.obj [])) "packageName"

/-- First truthy manifest packageName over a list of version objects
(the package-id discovery loops in main.process_app and main.main). -/
def findPkgNameJ : List JVal → Option JVal
  | [] => none
  | v :: vs =>
    match versionPkgName v with
    | some p => if jTruthy p = true then some p else findPkgNameJ vs
    | none => findPkgNameJ vs

/-- Body of the per-release loop in main.process_app: select the best
asset, check filename ABI compliance, extract metadata, validate, track
the highest version code and signing certificate, and append the built
version object; any failure warns and skips the release. -/
def process_release (cfg : AppConfig) (env : ProcEnv) (now : Int)
    (st : LoopState) (release : Release) : LoopState :=
  let release_name := release.tag_name.getD (release.name.getD "unknown")
  match select_best_apk release.assets cfg.include_keywords cfg.exclude_keywords
      cfg.abi_policy with
  | none =>
    { st with rep := (st.rep.warning
        (s!"No valid APK asset in release {release_name}") (some cfg.logical_id)) }
  | some asset =>
    let compliance := check_abi_compliance asset cfg.abi_policy
    if compliance.1 = false then
      { st with rep := (st.rep.warning
          (s!"Release {release_name} has non-compliant ABI") (some cfg.logical_id)) }
    else
      match asset.browser_download_url with
      | none =>
        { st with rep := (st.rep.warning
            (s!"No download URL for asset in release {release_name}")
            (some cfg.logical_id)) }
      | some download_url =>
        if download_url = "" then
          { st with rep := (st.rep.warning
              (s!"No download URL for asset in release {release_name}")
              (some cfg.logical_id)) }
        else
          match env.extract download_url with
          | Except.error e =>
            { st with rep := (st.rep.warning
                (s!"Failed to process APK from {release_name}: {e}")
                (some cfg.logical_id)) }
          | Except.ok metadata =>
            let vres := st.app_validator.validate_version metadata
            if vres.1.is_valid = false then
              { st with
                app_validator := vres.2
                rep := (st.rep.warning
                  (s!"Validation failed for {release_name}: {vres.1.error_message}")
                  (some cfg.logical_id)) }
            else
              let new_highest :=
                match metadata.version_code with
                | some version_code =>
                  match st.new_highest_version with
                  | none => some version_code
                  | some h => if version_code > h then some version_code else some h
                | none => st.new_highest_version
              let new_cert :=
                if pyTruthyS metadata.signing_cert_sha256 = true then
                  metadata.signing_cert_sha256
                else st.new_signing_cert
              let version_obj := build_version_object metadata download_url none now
              { st with
                valid_versions := st.valid_versions ++ [version_obj]
                new_highest_version := new_highest
                new_signing_cert := new_cert
                app_validator := vres.2 }

/-- The per-release loop of main.process_app. -/
def process_releases (cfg : AppConfig) (env : ProcEnv) (now : Int) :
    List Release → LoopState → LoopState
  | [], st => st
  | r :: rs, st => process_releases cfg env now rs (process_release cfg env now st r)

/-- Processing of one app (main.process_app): fetch, loop over
releases, resolve the package id (manifest packageName first, allow-list
fallback), register it globally, apply retention, update the cache and
build the package object.  Returns the optional package object and the
updated cache, global session and reporter. -/
def process_app (app_config : AppConfig) (cache : Cache)
    (global_validator : GlobalValidator) (env : ProcEnv) (now : Int)
    (rep : Reporter) : Option JVal × Cache × GlobalValidator × Reporter :=
  if app_config.logical_id = "" ∨ app_config.github = "" then
    (none, cache, global_validator,
     rep.error "Missing logical_id or github for app config"
       (some (if app_config.logical_id = "" then "unknown" else app_config.logical_id)))
  else
    let rep := rep.notice (s!"Processing {app_config.logical_id} ({app_config.github})") none
    let cached_app := alookup cache.apps app_config.logical_id
    let cached_cert := cached_app.bind (fun c => c.signing_cert)
    let cached_highest_version := cached_app.bind (fun c => c.highest_versionCode)
    let app_validator : AppValidator :=
      ⟨app_config.logical_id, app_config.abi_policy, app_config.allowed_ids,
       app_config.allow_pkg_change, app_config.allow_signature_change,
       cached_cert, cached_highest_version, ∅, [], []⟩
    match env.fetchResult with
    | Except.error e =>
      (none, cache, global_validator, rep.error e (some app_config.logical_id))
    | Except.ok releases =>
      if releases.isEmpty = true then
        (none, cache, global_validator,
         rep.error "No valid releases found" (some app_config.logical_id))
      else
        let st := process_releases app_config env now releases
          (LoopState.mk [] none none app_validator rep)
        if st.valid_versions.isEmpty = true then
          (none, cache, global_validator,
           st.rep.error "No valid versions found after validation"
             (some app_config.logical_id))
        else
          let package_id? : Option JVal :=
            match findPkgNameJ st.valid_versions with
            | some p => some p
            | none =>
              if app_config.allowed_ids ≠ [] then
                (app_config.allowed_ids.head?).map JVal.str
              else none
          match package_id? with
          | none =>
            (none, cache, global_validator,
             st.rep.error "Could not determine package ID" (some app_config.logical_id))
          | some pid =>
            let package_id := jKeyStr pid
            let reg := global_validator.register_package_id package_id app_config.logical_id
            if reg.1.is_valid = false then
              (none, cache, reg.2,
               st.rep.error reg.1.error_message (some app_config.logical_id))
            else
              let retain_count :=
                app_config.retain_versions.getD (cache.max_versions_default.getD 2)
              let valid_versions := apply_retention st.valid_versions retain_count
              let cache :=
                if st.new_highest_version.isSome ∨ pyTruthyS st.new_signing_cert = true then
                  { cache with apps := (pyDictSet cache.apps app_config.logical_id
                      (CacheApp.mk package_id
                        (pyOrS st.new_signing_cert cached_cert)
                        (pyOrI st.new_highest_version cached_highest_version))) }
                else cache
              let package_obj :=
                build_package_object package_id valid_versions app_config none now
              (some package_obj, cache, reg.2,
               st.rep.notice
                 (s!"Successfully processed {app_config.logical_id}")
                 (some app_config.logical_id))

/-- Top-level run configuration (apps.yaml content). -/
structure MainConfig where
  repo : RepoConfig
  apps : List AppConfig

/-- All external inputs of one run of main.main: the config-load and
cache-load outcomes, per-app oracles, write/save success flags and the
clock. -/
structure MainEnv where
  config : Except String MainConfig
  cache : Cache
  appEnv : Nat → ProcEnv
  writeV2Ok : Bool
  writeV1Ok : Bool
  saveCacheOk : Bool
  now : Int

/-- Observable outcome of one run of main.main: exit code, the index
documents actually written (none = not written), the assembled packages
mapping, the final diagnostics and cache. -/
structure MainOutcome where
  exitCode : Int
  writtenIndex : Option JVal
  writtenIndexV1 : Option JVal
  packages_data : List (String × JVal)
  rep : Reporter
  finalCache : Cache

/-- The per-app loop of main.main: process each app and, when a package
object comes back, key it into packages_data by the first truthy
manifest packageName among its versions (skipping it when none is
found). -/
def processApps (env : MainEnv) :
    List (Nat × AppConfig) → Cache → GlobalValidator → Reporter →
    List (String × JVal) → Cache × GlobalValidator × Reporter × List (String × JVal)
  | [], cache, gv, rep, pkgs => (cache, gv, rep, pkgs)
  | c :: cs, cache, gv, rep, pkgs =>
    let r := process_app c.2 cache gv (env.appEnv c.1) env.now rep
    match r.1 with
    | some package_obj =>
      (match findPkgNameJ
          ((jFields (jGetD package_obj "versions" (JVal.obj []))).map Prod.snd) with
       | some pk =>
         processApps env cs r.2.1 r.2.2.1 r.2.2.2
           (pyDictSet pkgs (jKeyStr pk) package_obj)
       | none => processApps env cs r.2.1 r.2.2.1 r.2.2.2 pkgs)
    | none => processApps env cs r.2.1 r.2.2.1 r.2.2.2 pkgs

namespace PyMain

/-- One run (main.main): load config and cache, process every app,
report duplicate package ids, build and validate the index, write
index-v2 and index-v1, save the cache, and map failures to the exit
code (1 = config/validation/write failure, 2 = some app failed,
0 = clean run). -/
def main (env : MainEnv) : MainOutcome :=
  let rep : Reporter := ⟨[], [], []⟩
  match env.config with
  | Except.error e =>
    MainOutcome.mk 1 none none []
      (rep.error (s!"Failed to load apps.yaml: {e}") none) env.cache
  | Except.ok config =>
    if config.apps.isEmpty = true then
      MainOutcome.mk 1 none none []
        (rep.error "No apps defined in apps.yaml" none) env.cache
    else
      let r := processApps env config.apps.enum env.cache (GlobalValidator.mk [] []) rep []
      let cache := r.1
      let gv := r.2.1
      let rep := r.2.2.1
      let packages_data := r.2.2.2
      let rep := gv.duplicate_pairs.foldl
        (fun rp t =>
          rp.error (s!"Duplicate package ID {t.1} between {t.2.1} and {t.2.2}") none)
        rep
      let index := build_index config.repo packages_data env.now
      let v := validate_index_structure index
      if v.1 = false then
        MainOutcome.mk 1 none none packages_data
          (v.2.foldl (fun rp e => rp.error (s!"Index validation failed: {e}") none) rep)
          cache
      else if env.writeV2Ok = false then
        MainOutcome.mk 1 none none packages_data
          (rep.error "Failed to write index-v2.json" none) cache
      else
        let rep := rep.notice "Successfully wrote index-v2.json" none
        let index_v1 := build_index_v1 config.repo packages_data
        if env.writeV1Ok = false then
          MainOutcome.mk 1 (some index) none packages_data
            (rep.error "Failed to write index-v1.json" none) cache
        else
          let rep := rep.notice "Successfully wrote index-v1.json" none
          let rep :=
            if env.saveCacheOk = false then
              rep.warning "Failed to save metadata cache" none
            else rep
          MainOutcome.mk (if rep.has_failures = true then 2 else 0)
            (some index) (some index_v1) packages_data rep cache

end PyMain

theorem bvo_no_packageName (m : Metadata) (url : String) (ts : Option Int) (now : Int) :
    versionPkgName (build_version_object m url ts now) = none := by
  by_cases h1 : m.native_code ≠ [] <;> by_cases h2 : m.permissions.isEmpty = false <;>
    simp [versionPkgName, build_version_object, jGetD, jGet, alookup, h1, h2]

theorem mem_pyDictSet {β : Type} (m : List (String × β)) (k : String) (v : β)
    (q : String × β) (hq : q ∈ pyDictSet m k v) : q = (k, v) ∨ q ∈ m := by
  unfold pyDictSet at hq
  split at hq
  · rcases List.mem_map.mp hq with ⟨p, hp, hfp⟩
    by_cases hpk : p.1 = k
    · left
      rw [← hfp, if_pos hpk]
    · right
      rw [← hfp, if_neg hpk]
      exact hp
  · rcases List.mem_append.mp hq with h | h
    · right; exact h
    · left; simpa using h

theorem versionsDictOf_mem (versions : List JVal) (q : String × JVal)
    (hq : q ∈ versionsDictOf versions) : q.2 ∈ versions := by
  suffices h : ∀ acc : List (String × JVal),
      q ∈ versions.foldl (fun d v =>
        let sha256 := jGetD (jGetD v "file" (JVal.obj [])) "sha256" (JVal.str "")
        if jTruthy sha256 = true then pyDictSet d (jKeyStr sha256) v else d) acc →
      q ∈ acc ∨ q.2 ∈ versions by
    rcases h [] hq with hacc | hmem
    · cases hacc
    · exact hmem
  clear hq
  induction versions with
  | nil => intro acc h; exact Or.inl h
  | cons v vs ih =>
    intro acc h
    simp only [List.foldl_cons] at h
    rcases ih _ h with hacc | hmem
    · by_cases hc : jTruthy (jGetD (jGetD v "file" (JVal.obj [])) "sha256" (JVal.str "")) = true
      · rw [if_pos hc] at hacc
        rcases mem_pyDictSet _ _ _ _ hacc with rfl | hacc
        · exact Or.inr (List.mem_cons_self _ _)
        · exact Or.inl hacc
      · rw [if_neg hc] at hacc
        exact Or.inl hacc
    · exact Or.inr (List.mem_cons_of_mem v hmem)

theorem apply_retention_mem (versions : List JVal) (N : Int) (v : JVal)
    (hv : v ∈ apply_retention versions N) : v ∈ versions := by
  unfold apply_retention at hv
  split at hv
  · cases hv
  · have h1 : v ∈ sortDescBy vcGt versions := List.take_subset _ _ hv
    exact (sortDescBy_perm vcGt versions).mem_iff.mp h1

theorem build_package_object_versions (package_id : String) (versions : List JVal)
    (app_config : AppConfig) (ts : Option Int) (now : Int) :
    jGetD (build_package_object package_id versions app_config ts now) "versions"
        (JVal.obj []) = JVal.obj (versionsDictOf versions) := by
  unfold build_package_object
  simp [jGetD, jGet, alookup]

theorem process_release_versions (cfg : AppConfig) (env : ProcEnv) (now : Int)
    (st : LoopState) (r : Release) :
    (process_release cfg env now st r).valid_versions = st.valid_versions ∨
    ∃ m url, (process_release cfg env now st r).valid_versions =
      st.valid_versions ++ [build_version_object m url none now] := by
  simp only [process_release]
  repeat' split
  all_goals first
    | exact Or.inl rfl
    | exact Or.inr ⟨_, _, rfl⟩

theorem process_releases_pkgname (cfg : AppConfig) (env : ProcEnv) (now : Int)
    (rs : List Release) :
    ∀ st : LoopState, (∀ v ∈ st.valid_versions, versionPkgName v = none) →
      ∀ v ∈ (process_releases cfg env now rs st).valid_versions,
        versionPkgName v = none := by
  induction rs with
  | nil => intro st hst; exact hst
  | cons r rs ih =>
    intro st hst
    refine ih (process_release cfg env now st r) ?_
    intro v hv
    rcases process_release_versions cfg env now st r with heq | ⟨m, url, heq⟩
    · exact hst v (heq ▸ hv)
    · rw [heq] at hv
      rcases List.mem_append.mp hv with h | h
      · exact hst v h
      · have : v = build_version_object m url none now := by simpa using h
        rw [this]
        exact bvo_no_packageName m url none now

theorem findPkgNameJ_none (vs : List JVal)
    (h : ∀ v ∈ vs, versionPkgName v = none) : findPkgNameJ vs = none := by
  induction vs with
  | nil => rfl
  | cons v vs ih =>
    simp only [findPkgNameJ]
    rw [h v (List.mem_cons_self v vs)]
    exact ih (fun w hw => h w (List.mem_cons_of_mem v hw))

theorem process_app_versions (app_config : AppConfig) (cache : Cache)
    (gv : GlobalValidator) (env : ProcEnv) (now : Int) (rep : Reporter) (pobj : JVal)
    (h : (process_app app_config cache gv env now rep).1 = some pobj) :
    ∀ q ∈ jFields (jGetD pobj "versions" (JVal.obj [])), versionPkgName q.2 = none := by
  simp only [process_app] at h
  repeat' split at h
  all_goals dsimp only at h
  any_goals exact Option.noConfusion h
  all_goals
    have hobj : build_package_object _ _ app_config none now = pobj := Option.some.inj h
  all_goals rw [← hobj, build_package_object_versions]
  all_goals
    intro q hq
    simp only [jFields] at hq
    have hq2 := versionsDictOf_mem _ q hq
    have hq3 := apply_retention_mem _ _ _ hq2
    exact process_releases_pkgname app_config env now _ _ (by simp) q.2 hq3

theorem processApps_packages_nil (env : MainEnv) (cs : List (Nat × AppConfig)) :
    ∀ (cache : Cache) (gv : GlobalValidator) (rep : Reporter),
      (processApps env cs cache gv rep []).2.2.2 = [] := by
  induction cs with
  | nil => intro cache gv rep; rfl
  | cons c cs ih =>
    intro cache gv rep
    simp only [processApps]
    cases hr : (process_app c.2 cache gv (env.appEnv c.1) env.now rep).1 with
    | none => exact ih _ _ _
    | some package_obj =>
      have hall := process_app_versions c.2 cache gv (env.appEnv c.1) env.now rep
        package_obj hr
      have hfind : findPkgNameJ
          ((jFields (jGetD package_obj "versions" (JVal.obj []))).map Prod.snd) = none := by
        refine findPkgNameJ_none _ ?_
        intro v hv
        rcases List.mem_map.mp hv with ⟨q, hq, hq2⟩
        exact hq2 ▸ hall q hq
      simp only [hfind]
      exact ih _ _ _

theorem jGet_build_index_packages (rc : RepoConfig)
    (pkgs : List (String × JVal)) (now : Int) :
    jGet (build_index rc pkgs now) "packages" = some (JVal.obj pkgs) := by
  simp [build_index, jGet, alookup]

/-- C1: build_version_object never emits a packageName key in its
manifest; hence process_app's package objects carry no manifest
packageName, main's re-derivation of the package id over a returned
package object's versions always yields None, no package object is ever
keyed into packages_data, and the assembled Index's packages mapping is
empty on every run. -/
theorem C1_packages_always_empty (env : MainEnv) (m : Metadata) (url : String)
    (ts : Option Int) (now : Int) :
    versionPkgName (build_version_object m url ts now) = none ∧
    (∀ (app_config : AppConfig) (cache : Cache) (gv : GlobalValidator)
        (penv : ProcEnv) (pnow : Int) (rep : Reporter) (pobj : JVal),
      (process_app app_config cache gv penv pnow rep).1 = some pobj →
      findPkgNameJ
        ((jFields (jGetD pobj "versions" (JVal.obj []))).map Prod.snd) = none) ∧
    (PyMain.main env).packages_data = [] ∧
    (∀ idx, (PyMain.main env).writtenIndex = some idx →
      jGet idx "packages" = some (JVal.obj [])) := by
  refine ⟨bvo_no_packageName m url ts now, ?_, ?_, ?_⟩
  · intro app_config cache gv penv pnow rep pobj h
    refine findPkgNameJ_none _ ?_
    intro v hv
    rcases List.mem_map.mp hv with ⟨q, hq, hq2⟩
    exact hq2 ▸ process_app_versions app_config cache gv penv pnow rep pobj h q hq
  · cases hc : env.config with
    | error e => simp [PyMain.main, hc]
    | ok config =>
      by_cases he : config.apps.isEmpty = true
      · simp [PyMain.main, hc, he]
      · simp only [PyMain.main, hc]
        rw [if_neg he]
        repeat' split
        all_goals
          exact processApps_packages_nil env config.apps.enum env.cache
            (GlobalValidator.mk [] []) (Reporter.mk [] [] [])
  · intro idx hidx
    cases hc : env.config with
    | error e => simp [PyMain.main, hc] at hidx
    | ok config =>
      by_cases he : config.apps.isEmpty = true
      · simp [PyMain.main, hc, he] at hidx
      · simp only [PyMain.main, hc] at hidx
        rw [if_neg he] at hidx
        repeat' split at hidx
        all_goals first
          | exact Option.noConfusion hidx
          | (rw [← Option.some.inj hidx, jGet_build_index_packages,
               processApps_packages_nil env config.apps.enum env.cache
                 (GlobalValidator.mk [] []) (Reporter.mk [] [] [])])

/-- A sample app configuration used by the run-level witnesses. -/
def cfgA : AppConfig :=
  ⟨"app1", "owner/repo", [], false, false, "arm_preferred", none, [], [],
   ⟨[], "", "", "", []⟩⟩

/-- A successful-path app configuration with an identifier allow-list. -/
def cfgB : AppConfig :=
  ⟨"app1", "owner/repo", ["com.example.app"], false, false, "arm_preferred", none, [], [],
   ⟨[], "", "", "", []⟩⟩

/-- A concrete run environment in which the single configured app fails
(its fetch returns an empty release list) and all writes succeed. -/
def envA : MainEnv :=
  ⟨Except.ok ⟨⟨none, none, none, none⟩, [cfgA]⟩, ⟨[], none⟩,
   fun _ => ⟨Except.ok [], fun _ => Except.error "network unavailable"⟩,
   true, true, true, 0⟩

/-- Per-app oracles under which cfgB is processed successfully. -/
def envB : ProcEnv :=
  ⟨Except.ok [⟨some "v1", none, [⟨"app-arm64.apk", 100, some "https://x/app.apk"⟩]⟩],
   fun _ => Except.ok mdV7⟩

/-- Witness for C1 at concrete inputs, including a successfully
processed app whose package object still has no manifest packageName. -/
theorem C1_witness :
    versionPkgName (build_version_object mdV7 "https://x/app.apk" none 0) = none ∧
    (PyMain.main envA).packages_data = [] ∧
    findPkgNameJ
      ((jFields (jGetD
        ((process_app cfgB ⟨[], none⟩ ⟨[], []⟩ envB 0 ⟨[], [], []⟩).1.getD JVal.null)
        "versions" (JVal.obj []))).map Prod.snd) = none ∧
    jGet (build_index (RepoConfig.mk none none none none) [] 0) "packages" =
      some (JVal.obj []) := by
  have h := C1_packages_always_empty envA mdV7 "https://x/app.apk" none 0
  exact ⟨h.1, h.2.2.1,
    h.2.1 cfgB ⟨[], none⟩ ⟨[], []⟩ envB 0 ⟨[], [], []⟩ _ rfl,
    h.2.2.2 (build_index (RepoConfig.mk none none none none) [] 0) rfl⟩

theorem validate_build_index (rc : RepoConfig) (pkgs : List (String × JVal)) (now : Int) :
    validate_index_structure (build_index rc pkgs now) = (true, []) := by
  unfold validate_index_structure build_index build_repo_object
  cases rc.icon with
  | none => simp [jGet, alookup]
  | some i =>
    by_cases ht : jTruthy i = true
    · simp [jGet, alookup, ht]
    · simp [jGet, alookup, ht]

/-- C9 counterexample: a run in which every configured application
fails (the only app's fetch yields no releases) still writes an index
(with empty packages) and exits with code 2 — the code's partial-success
path — rather than exiting in a failed state without overwriting the
previous index as the claim requires for the every-application-failed
case. -/
theorem C9_counterexample :
    (PyMain.main envA).exitCode = 2 ∧
    (PyMain.main envA).writtenIndex.isSome = true ∧
    (PyMain.main envA).rep.failed_apps.map Prod.fst = ["app1"] ∧
    (PyMain.main envA).rep.failed_apps.length = 1 :=
  ⟨by decide, by decide, by decide, by decide⟩

/-- C9 amended: the run exits 1 without writing any index when the
configuration fails to load, when no apps are configured, or when
writing index-v2 fails; an index built by build_index always passes the
structural validation (so the structural hard-failure branch cannot
fire for it); and whenever both writes succeed the index is written and
the exit code is 2 if any per-application failure was recorded — even
when every application failed — and 0 otherwise. -/
theorem C9_exit_condition_amended (env : MainEnv) :
    (∀ e, env.config = Except.error e →
      (PyMain.main env).exitCode = 1 ∧ (PyMain.main env).writtenIndex = none) ∧
    (∀ config, env.config = Except.ok config → config.apps = [] →
      (PyMain.main env).exitCode = 1 ∧ (PyMain.main env).writtenIndex = none) ∧
    (∀ (rc : RepoConfig) (pkgs : List (String × JVal)) (now2 : Int),
      (validate_index_structure (build_index rc pkgs now2)).1 = true) ∧
    (∀ config, env.config = Except.ok config → config.apps ≠ [] →
      env.writeV2Ok = false →
      (PyMain.main env).exitCode = 1 ∧ (PyMain.main env).writtenIndex = none) ∧
    (∀ config, env.config = Except.ok config → config.apps ≠ [] →
      env.writeV2Ok = true → env.writeV1Ok = true →
      (PyMain.main env).writtenIndex =
        some (build_index config.repo (PyMain.main env).packages_data env.now) ∧
      ((PyMain.main env).exitCode =
        if (PyMain.main env).rep.has_failures = true then 2 else 0)) := by
  refine ⟨?_, ?_, ?_, ?_, ?_⟩
  · intro e hc
    exact ⟨by simp [PyMain.main, hc], by simp [PyMain.main, hc]⟩
  · intro config hc ha
    have he : config.apps.isEmpty = true := by simp [ha]
    exact ⟨by simp [PyMain.main, hc, he], by simp [PyMain.main, hc, he]⟩
  · intro rc pkgs now2
    rw [validate_build_index]
  · intro config hc ha hw
    have he : ¬(config.apps.isEmpty = true) := by simpa using ha
    constructor
    · simp only [PyMain.main, hc]
      rw [if_neg he, validate_build_index]
      simp [hw]
    · simp only [PyMain.main, hc]
      rw [if_neg he, validate_build_index]
      simp [hw]
  · intro config hc ha hw2 hw1
    have he : ¬(config.apps.isEmpty = true) := by simpa using ha
    constructor
    · simp only [PyMain.main, hc]
      rw [if_neg he, validate_build_index]
      simp [hw2, hw1]
    · simp only [PyMain.main, hc]
      rw [if_neg he, validate_build_index]
      simp [hw2, hw1]

/-- Witness for the C9 amended theorem at the concrete all-apps-failed
run: the index is written and the exit code follows the failure flag. -/
theorem C9_witness :
    (PyMain.main envA).writtenIndex =
      some (build_index (RepoConfig.mk none none none none)
        (PyMain.main envA).packages_data 0) ∧
    ((PyMain.main envA).exitCode =
      if (PyMain.main envA).rep.has_failures = true then 2 else 0) ∧
    (validate_index_structure (build_index (RepoConfig.mk none none none none) [] 5)).1 =
      true := by
  have h := C9_exit_condition_amended envA
  have h5 := h.2.2.2.2 ⟨⟨none, none, none, none⟩, [cfgA]⟩ rfl (by simp) rfl rfl
  exact ⟨h5.1, h5.2, h.2.2.1 (RepoConfig.mk none none none none) [] 5⟩
